import Mathlib

/-!
# Verification of the Agenda Timeline Engine

Shallow embedding of the agenda engine of `activity_management`:
the duration allocator and forward schedule composer
(`scripts/actions/agenda_generator.py`) and the reverse agenda parser
with its session classifier (`scripts/actions/parse_agenda_docx.py`).
Times are modelled as minute counts, Python dicts as structures,
Python `None` as `Option`, and raised exceptions as `Option.none`.
-/

namespace ActivityMgmt

/-! ## Character and string utilities -/

/-- Python `str.strip` whitespace test (ASCII whitespace incl. `\v`, `\f`). -/
def isPyWhitespace (c : Char) : Bool :=
  c.isWhitespace || c = '\x0b' || c = '\x0c'

/-- Strip leading and trailing whitespace from a character list. -/
def pyStripList (cs : List Char) : List Char :=
  ((cs.dropWhile isPyWhitespace).reverse.dropWhile isPyWhitespace).reverse

/-- Python `str.strip()`. -/
def pyStrip (s : String) : String :=
  String.mk (pyStripList s.toList)

/-- Lower-case every character (ASCII case only, as relevant here). -/
def lowerStr (s : String) : String :=
  String.mk (s.toList.map Char.toLower)

/-- Is the first character list a prefix of the second? -/
def isPrefixOfCh : List Char → List Char → Bool
  | [], _ => true
  | _ :: _, [] => false
  | a :: as, b :: bs => a = b && isPrefixOfCh as bs

/-- Is the first character list a contiguous infix of the second? -/
def isInfixOfCh (needle hay : List Char) : Bool :=
  match hay with
  | [] => needle.isEmpty
  | _ :: tl => isPrefixOfCh needle hay || isInfixOfCh needle tl

/-- Substring containment, `needle in hay` in Python. -/
def containsSub (hay needle : String) : Bool :=
  isInfixOfCh needle.toList hay.toList

/-- Numeric value of an ASCII digit character. -/
def digitVal (c : Char) : Nat := c.toNat - 48

/-- Parse a non-empty all-digit character list into a number. -/
def digitsToNat? (cs : List Char) : Option Nat :=
  if cs ≠ [] ∧ cs.all Char.isDigit then
    some (cs.foldl (fun a c => a * 10 + digitVal c) 0)
  else none

/-- Split a character list on a separator character (keeping empty pieces). -/
def splitOnChar (sep : Char) : List Char → List Char → List (List Char)
  | [], acc => [acc.reverse]
  | c :: cs, acc =>
    if c = sep then acc.reverse :: splitOnChar sep cs []
    else splitOnChar sep cs (c :: acc)

/-- `datetime.strptime(s, "%H:%M")`, returning minutes since midnight;
`none` models the `ValueError` raised on a malformed time. -/
def parseHHMM (s : String) : Option Nat :=
  match splitOnChar ':' s.toList [] with
  | [h, m] =>
    match digitsToNat? h, digitsToNat? m with
    | some hv, some mv =>
      if h.length ≤ 2 ∧ m.length ≤ 2 ∧ hv ≤ 23 ∧ mv ≤ 59 then
        some (hv * 60 + mv)
      else none
    | _, _ => none
  | _ => none

/-- ASCII digit character for `n < 10`. -/
def digitChar (n : Nat) : Char := Char.ofNat (48 + n)

/-- Python `f"{n:02d}"` for a natural number. -/
def fmt2 (n : Nat) : String :=
  if n < 10 then String.mk ['0', digitChar n] else Nat.repr n

/-- `strftime("%H:%M")` of an absolute minute count. -/
def formatHHMM (t : Nat) : String :=
  fmt2 (t / 60 % 24) ++ ":" ++ fmt2 (t % 60)

/-! ## Data model (`agenda_settings` and speakers) -/

/-- One entry of `config["special_sessions"]`.  `duration = none` models the
JSON `null` / missing key; `start_time`/`end_time` are the fields back-filled
by the reverse parser and absent on forward-composition inputs. -/
structure SpecialSession where
  after_speaker : Int
  title : String
  duration : Option Nat := none
  speaker : Option String := none
  start_time : Option String := none
  end_time : Option String := none
deriving Repr, DecidableEq

/-- The merged `agenda_settings` record consumed by the generator. -/
structure AgendaConfig where
  start_time : String
  end_time : String
  speaker_minutes : Nat
  special_sessions : List SpecialSession
deriving Repr, DecidableEq

/-- One row of `speakers.csv` as loaded by `agenda_generator.py`. -/
structure Speaker where
  index : Int
  title : String
  speaker_name : String
deriving Repr, DecidableEq

/-! ## Duration allocator (`distribute_empty_durations`) -/

/-- Python falsiness of `s.get("duration")`: missing, `null`, or `0`. -/
def durationMissing (d : Option Nat) : Bool := d.getD 0 == 0

/-- `total_minutes`: the window between `start_time` and `end_time`;
`none` models the `ValueError` of `strptime` on a malformed time. -/
def totalMinutes (config : AgendaConfig) : Option Int := do
  let s ← parseHHMM config.start_time
  let e ← parseHHMM config.end_time
  return (e : Int) - (s : Int)

/-- `total_known`: speaker commitment plus all truthy special durations. -/
def totalKnown (config : AgendaConfig) (speaker_count : Nat) : Nat :=
  speaker_count * config.speaker_minutes +
    ((config.special_sessions.filter fun s => ! durationMissing s.duration).map
      fun s => s.duration.getD 0).sum

/-- `empty_items`: the special sessions whose duration is falsy. -/
def emptyItems (config : AgendaConfig) : List SpecialSession :=
  config.special_sessions.filter fun s => durationMissing s.duration

/-- Python `round(a / b)` for natural `a`, positive `b`
(float division then banker's rounding: ties go to the even integer). -/
def pyRoundDiv (a b : Nat) : Nat :=
  let q := a / b
  let r := a % b
  if 2 * r < b then q
  else if b < 2 * r then q + 1
  else if q % 2 = 0 then q else q + 1

/-- Console messages printed by `distribute_empty_durations`. -/
inductive AllocMessage where
  | insufficientTime (deficitMinutes : Int)
  | distributedInfo (remainingMinutes : Int) (avgMinutes : Nat)
deriving Repr, DecidableEq

/-- The in-place fill of the `for s in empty_items: s["duration"] = avg_time`
loop, as a map over the full session list (only falsy durations change). -/
def fillEmpty (avg : Nat) (l : List SpecialSession) : List SpecialSession :=
  l.map fun s =>
    if durationMissing s.duration then { s with duration := some avg } else s

/-- Body of `distribute_empty_durations` once `total_minutes` is known
(the source's local variables `total_known`, `empty_items`, `remaining`
and `avg_time` are inlined as the corresponding expressions). -/
def distributeWith (config : AgendaConfig) (speaker_count : Nat) (tm : Int) :
    AgendaConfig × List AllocMessage :=
  if tm - (totalKnown config speaker_count : Int) < 0 then
    (config, [.insufficientTime (-(tm - (totalKnown config speaker_count : Int)))])
  else if (emptyItems config).isEmpty then
    (config, [])
  else
    ({ config with special_sessions :=
        (fillEmpty (pyRoundDiv (tm - (totalKnown config speaker_count : Int)).toNat
            (emptyItems config).length) config.special_sessions) },
      [.distributedInfo (tm - (totalKnown config speaker_count : Int))
        (pyRoundDiv (tm - (totalKnown config speaker_count : Int)).toNat
          (emptyItems config).length)])

/-- `distribute_empty_durations(config, speaker_count)`: fills every falsy
duration with the rounded average of the remaining budget; on a negative
budget it prints a warning and returns the config untouched.  `none` models
the `strptime` exception on malformed `start_time`/`end_time`. -/
def distribute_empty_durations (config : AgendaConfig) (speaker_count : Nat) :
    Option (AgendaConfig × List AllocMessage) :=
  (totalMinutes config).map (distributeWith config speaker_count)

/-! ## Forward schedule composer (`generate_agenda`) -/

/-- One emitted agenda row; talk rows carry `speaker_name = some _`,
special rows carry `none` (the Python dicts differ in exactly that key). -/
structure AgendaRow where
  session_id : String
  start_time : String
  end_time : String
  session_title : String
  speaker_name : Option String := none
  session_type : String
deriving Repr, DecidableEq

/-- `generate_session_id(event_date, index)`. -/
def generate_session_id (event_date : String) (index : Nat) : String :=
  "session_" ++ event_date ++ "_" ++ fmt2 index

/-- The `session_type.json` template: an ordered family of title maps. -/
def SessionTypeTemplate := List (List (String × String))

/-- `classify_session_type(title)`: first template map containing the
stripped title wins; default `"lecture"`. -/
def classify_session_type (tmpl : SessionTypeTemplate) (title : String) : String :=
  let t := pyStrip title
  match tmpl.findSome? (fun mapping => mapping.lookup t) with
  | some ty => ty
  | none => "lecture"

/-- `insert_special_sessions(agenda, event_date, current_time, current_index,
special_list)`: appends a timed row for every session anchored at
`current_index`, in list order, advancing the cursor.  `none` models the
`TypeError` of `timedelta(minutes=None)` on a still-null duration. -/
def insert_special_sessions (tmpl : SessionTypeTemplate) (event_date : String) :
    List AgendaRow → Nat → Int → List SpecialSession → Option (List AgendaRow × Nat)
  | agenda, current_time, _, [] => some (agenda, current_time)
  | agenda, current_time, current_index, s :: rest =>
    if s.after_speaker = current_index then
      match s.duration with
      | none => none
      | some d =>
        let end_time := current_time + d
        let row : AgendaRow :=
          { session_id := generate_session_id event_date (agenda.length + 1)
            start_time := formatHHMM current_time
            end_time := formatHHMM end_time
            session_title := s.title
            speaker_name := none
            session_type := classify_session_type tmpl s.title }
        insert_special_sessions tmpl event_date (agenda ++ [row]) end_time current_index rest
    else
      insert_special_sessions tmpl event_date agenda current_time current_index rest

/-- The speaker loop of `generate_agenda`: talk row, then the specials
anchored right after that speaker's index. -/
def generate_agenda_steps (tmpl : SessionTypeTemplate) (event_date : String)
    (config : AgendaConfig) :
    List Speaker → List AgendaRow → Nat → Option (List AgendaRow × Nat)
  | [], agenda, t => some (agenda, t)
  | sp :: rest, agenda, t =>
    let end_time := t + config.speaker_minutes
    let row : AgendaRow :=
      { session_id := generate_session_id event_date (agenda.length + 1)
        start_time := formatHHMM t
        end_time := formatHHMM end_time
        session_title := sp.title
        speaker_name := some sp.speaker_name
        session_type := classify_session_type tmpl "演講" }
    match insert_special_sessions tmpl event_date (agenda ++ [row]) end_time
        sp.index config.special_sessions with
    | none => none
    | some (agenda', t') => generate_agenda_steps tmpl event_date config rest agenda' t'

/-- `generate_agenda(event_date, config, speakers)` together with the final
value of the `current_time` cursor (the source keeps it in `current_time`).
`none` models the `strptime`/`timedelta` exceptions on malformed data. -/
def generate_agenda_total (tmpl : SessionTypeTemplate) (event_date : String)
    (config : AgendaConfig) (speakers : List Speaker) :
    Option (List AgendaRow × Nat) :=
  match parseHHMM config.start_time with
  | none => none
  | some t0 =>
    match insert_special_sessions tmpl event_date [] t0 0 config.special_sessions with
    | none => none
    | some (agenda1, t1) =>
      match generate_agenda_steps tmpl event_date config speakers agenda1 t1 with
      | none => none
      | some (agenda2, t2) =>
        insert_special_sessions tmpl event_date agenda2 t2 999 config.special_sessions

/-- `generate_agenda` as the source returns it (the row list alone). -/
def generate_agenda (tmpl : SessionTypeTemplate) (event_date : String)
    (config : AgendaConfig) (speakers : List Speaker) : Option (List AgendaRow) :=
  (generate_agenda_total tmpl event_date config speakers).map Prod.fst

/-! ## Concrete inputs used by witnesses and counterexamples -/

/-- The end-to-end scenario config of the specification. -/
def cfgScenario : AgendaConfig :=
  { start_time := "09:00", end_time := "12:00", speaker_minutes := 30,
    special_sessions :=
      [ { after_speaker := 0, title := "Remarks", duration := some 10 },
        { after_speaker := 4, title := "Survey & Post-test", duration := none } ] }

/-- `cfgScenario` after the allocator assigned the 50 remaining minutes. -/
def cfgScenarioFilled : AgendaConfig :=
  { cfgScenario with special_sessions :=
      [ { after_speaker := 0, title := "Remarks", duration := some 10 },
        { after_speaker := 4, title := "Survey & Post-test", duration := some 50 } ] }

/-- The four speakers of the end-to-end scenario. -/
def speakersScenario : List Speaker :=
  [ ⟨1, "Talk1", "S1"⟩, ⟨2, "Talk2", "S2"⟩, ⟨3, "Talk3", "S3"⟩, ⟨4, "Talk4", "S4"⟩ ]

/-- A config whose window (60 min) is smaller than the speaker commitment
(2 × 50 min), with one null-duration special session. -/
def cfgDeficit : AgendaConfig :=
  { start_time := "09:00", end_time := "10:00", speaker_minutes := 50,
    special_sessions := [ { after_speaker := 0, title := "Closing", duration := none } ] }

/-- A config with a zero duration, a preset duration and a null duration
(window 60, one 10-minute speaker, 30 remaining over 2 falsy slots). -/
def cfgMixed : AgendaConfig :=
  { start_time := "09:00", end_time := "10:00", speaker_minutes := 10,
    special_sessions :=
      [ { after_speaker := 0, title := "A", duration := some 0 },
        { after_speaker := 0, title := "B", duration := some 20 },
        { after_speaker := 1, title := "C", duration := none } ] }

/-- `cfgMixed` after allocation: both falsy slots receive 15 minutes. -/
def cfgMixedFilled : AgendaConfig :=
  { cfgMixed with special_sessions :=
      [ { after_speaker := 0, title := "A", duration := some 15 },
        { after_speaker := 0, title := "B", duration := some 20 },
        { after_speaker := 1, title := "C", duration := some 15 } ] }

/-- A config whose 50 remaining minutes do not divide evenly over its three
null-duration sessions (`round(50/3) = 17`, so 51 minutes get assigned). -/
def cfgRound : AgendaConfig :=
  { start_time := "09:00", end_time := "10:00", speaker_minutes := 10,
    special_sessions :=
      [ { after_speaker := 0, title := "X", duration := none },
        { after_speaker := 0, title := "Y", duration := none },
        { after_speaker := 0, title := "Z", duration := none } ] }

/-- `cfgRound` after allocation: each empty slot got 17 minutes. -/
def cfgRoundFilled : AgendaConfig :=
  { cfgRound with special_sessions :=
      [ { after_speaker := 0, title := "X", duration := some 17 },
        { after_speaker := 0, title := "Y", duration := some 17 },
        { after_speaker := 0, title := "Z", duration := some 17 } ] }

/-- The single speaker used with `cfgRound`. -/
def speakersRound : List Speaker := [⟨1, "T", "N"⟩]

/-! ## Projections used to state composer properties -/

/-- The observable tag of an emitted row: its title, and the speaker name
that only talk rows carry. -/
def rowTag (r : AgendaRow) : String × Option String :=
  (r.session_title, r.speaker_name)

/-- Tags of the special sessions anchored at `idx`, in list order. -/
def specialTags (config : AgendaConfig) (idx : Int) : List (String × Option String) :=
  (config.special_sessions.filter fun s => s.after_speaker == idx).map
    fun s => (s.title, none)

/-- Total duration of the special sessions anchored at `idx`. -/
def specialSum (config : AgendaConfig) (idx : Int) : Nat :=
  ((config.special_sessions.filter fun s => s.after_speaker == idx).map
    fun s => s.duration.getD 0).sum

/-- The six rows the composer emits for the end-to-end scenario
(empty `session_type.json` template, event date 20250922). -/
def rowsScenario : List AgendaRow :=
  [ { session_id := "session_20250922_01", start_time := "09:00", end_time := "09:10",
      session_title := "Remarks", speaker_name := none, session_type := "lecture" },
    { session_id := "session_20250922_02", start_time := "09:10", end_time := "09:40",
      session_title := "Talk1", speaker_name := some "S1", session_type := "lecture" },
    { session_id := "session_20250922_03", start_time := "09:40", end_time := "10:10",
      session_title := "Talk2", speaker_name := some "S2", session_type := "lecture" },
    { session_id := "session_20250922_04", start_time := "10:10", end_time := "10:40",
      session_title := "Talk3", speaker_name := some "S3", session_type := "lecture" },
    { session_id := "session_20250922_05", start_time := "10:40", end_time := "11:10",
      session_title := "Talk4", speaker_name := some "S4", session_type := "lecture" },
    { session_id := "session_20250922_06", start_time := "11:10", end_time := "12:00",
      session_title := "Survey & Post-test", speaker_name := none,
      session_type := "lecture" } ]


/-! ## Reverse parser (`parse_agenda_docx.py`): text utilities -/

/-- `_clean_text`: replace non-breaking spaces, then strip. -/
def _clean_text (s : String) : String :=
  pyStrip (String.mk (s.toList.map fun c => if c = '\u00A0' then ' ' else c))

/-- Case-insensitive substring containment (a `re.I` search for a literal). -/
def containsSubCI (hay needle : String) : Bool :=
  isInfixOfCh (needle.toList.map Char.toLower) (hay.toList.map Char.toLower)

/-- Python `str.splitlines` over `\r\n`, `\n` and `\r` (no trailing empty
line, empty string gives no lines). -/
def pySplitlinesAux : List Char → List Char → List (List Char)
  | [], acc => [acc.reverse]
  | '\r' :: '\n' :: rest, acc =>
    if rest.isEmpty then [acc.reverse] else acc.reverse :: pySplitlinesAux rest []
  | '\n' :: rest, acc =>
    if rest.isEmpty then [acc.reverse] else acc.reverse :: pySplitlinesAux rest []
  | '\r' :: rest, acc =>
    if rest.isEmpty then [acc.reverse] else acc.reverse :: pySplitlinesAux rest []
  | c :: rest, acc => pySplitlinesAux rest (c :: acc)

/-- Python `str.splitlines`. -/
def pySplitlines (cs : List Char) : List (List Char) :=
  if cs.isEmpty then [] else pySplitlinesAux cs []

/-- First line of a string (`s.split("\n")[0]`). -/
def firstLineStr (s : String) : String :=
  String.mk (s.toList.takeWhile fun c => !(c == '\n'))

/-- Match `\d{2}` exactly at the head of the input. -/
def twoDigits : List Char → Option (String × List Char)
  | a :: b :: rest =>
    if a.isDigit && b.isDigit then some (String.mk [a, b], rest) else none
  | _ => none

/-- Match one `\d{1,2}:\d{2}` group at the head (greedy two-digit hour
first, with the regex backtracking to one digit). -/
def matchClockAt : List Char → Option (String × List Char)
  | a :: b :: c :: rest =>
    if a.isDigit && b.isDigit && c = ':' then
      match twoDigits rest with
      | some (m, rest2) => some (String.mk [a, b] ++ ":" ++ m, rest2)
      | none => none
    else if a.isDigit && b = ':' then
      match twoDigits (c :: rest) with
      | some (m, rest2) => some (String.mk [a] ++ ":" ++ m, rest2)
      | none => none
    else none
  | _ => none

/-- Match `TIME_RE` = `(\d{1,2}:\d{2})\s*-\s*(\d{1,2}:\d{2})` anchored at
the head, returning the two captured groups. -/
def matchTimeRangeAt (cs : List Char) : Option (String × String) :=
  match matchClockAt cs with
  | none => none
  | some (t1, rest1) =>
    match rest1.dropWhile isPyWhitespace with
    | '-' :: rest3 =>
      match matchClockAt (rest3.dropWhile isPyWhitespace) with
      | some (t2, _) => some (t1, t2)
      | none => none
    | _ => none

/-- `re.search` of `TIME_RE`: leftmost match in the input. -/
def searchTimeRange : List Char → Option (String × String)
  | [] => none
  | c :: rest =>
    match matchTimeRangeAt (c :: rest) with
    | some r => some r
    | none => searchTimeRange rest

/-- `_extract_time_range`: per-line search first, then the whole text. -/
def _extract_time_range (s : String) : Option (String × String) :=
  if s.isEmpty then none
  else
    match (pySplitlines s.toList).findSome? (fun line => searchTimeRange line) with
    | some r => some r
    | none => searchTimeRange s.toList

/-- `_minutes_between`: wraps past midnight, `none` on a malformed time
(the `strptime` `ValueError`). -/
def _minutes_between (a b : String) : Option Nat := do
  let ta ← parseHHMM a
  let tb ← parseHHMM b
  return if tb < ta then tb + 1440 - ta else tb - ta

/-! ## Session classifier (`SPECIAL_RULES`, host extraction) -/

/-- One `(pattern, normalized_title, is_end_of_day)` rule; the regex
alternation is kept as its list of literal alternatives. -/
structure SpecialRule where
  keywords : List String
  title : String
  is_end_of_day : Bool
deriving Repr, DecidableEq

/-- The ordered `SPECIAL_RULES` table, verbatim from the source. -/
def SPECIAL_RULES : List SpecialRule :=
  [ ⟨["問卷", "後測", "後測與問卷", "問卷與後測", "closing", "結語"], "問卷與後測", true⟩,
    ⟨["綜合討論", "討論", "討論時間"], "綜合討論", false⟩,
    ⟨["兌獎"], "兌獎", false⟩,
    ⟨["午餐", "午休", "午間"], "午間休息", false⟩,
    ⟨["大合照", "合照"], "大合照", false⟩,
    ⟨["致詞", "開場"], "致詞", false⟩,
    ⟨["主持", "主持人"], "主持人", false⟩,
    ⟨["休息", "中場休息"], "課間休息", false⟩,
    ⟨["報到", "簽到", "簽退"], "報到／簽到簽退", false⟩ ]

/-- `pat.search(hay)` for an alternation of literals under `re.I`. -/
def ruleMatches (r : SpecialRule) (hay : String) : Bool :=
  r.keywords.any fun kw => containsSubCI hay kw

/-- `END_TITLES`: titles of the end-of-day rules. -/
def END_TITLES : List String :=
  (SPECIAL_RULES.filter fun r => r.is_end_of_day).map fun r => r.title

/-- The for-loop of `_match_special_title` over an arbitrary rule list. -/
def matchRulesAux : List SpecialRule → String → Option String × Bool
  | [], _ => (none, false)
  | r :: rest, hay =>
    if ruleMatches r hay then (some r.title, r.is_end_of_day)
    else matchRulesAux rest hay

/-- `_match_special_title(topic_text, speaker_text)`. -/
def _match_special_title (topic_text speaker_text : String) : Option String × Bool :=
  matchRulesAux SPECIAL_RULES (_clean_text topic_text ++ "\n" ++ _clean_text speaker_text)

/-- The `HOST_PATTERN` alternation prefixes, in declaration order. -/
def hostAltList : List String :=
  ["主持人", "主持：", "主持", "主持者", "Chair", "Moderator", "主持人："]

/-- The six alternatives of the `re.sub` inside `_extract_host_names`. -/
def hostWords6 : List String :=
  ["主持人", "主持：", "主持", "主持者", "Chair", "Moderator"]

/-- Consume a literal prefix case-insensitively (`re.I`). -/
def matchPrefixCI : List Char → List Char → Option (List Char)
  | [], cs => some cs
  | _ :: _, [] => none
  | p :: ps, c :: cs =>
    if p.toLower = c.toLower then matchPrefixCI ps cs else none

/-- First alternative of an alternation that matches at the head. -/
def firstAltMatch (alts : List String) (cs : List Char) : Option (List Char) :=
  alts.findSome? fun alt => matchPrefixCI alt.toList cs

/-- Match `HOST_PATTERN` anchored at the head: host word, `\s*`, optional
colon, `\s*`, then the greedy `name` group `[^,\n;（）()]*`. -/
def matchHostAt (cs : List Char) : Option (String × List Char) :=
  match firstAltMatch hostAltList cs with
  | none => none
  | some rest1 =>
    let rest2 := rest1.dropWhile isPyWhitespace
    let rest3 := match rest2 with
      | c :: r => if c = ':' ∨ c = '：' then r else rest2
      | [] => rest2
    let rest4 := rest3.dropWhile isPyWhitespace
    let nameChars := rest4.takeWhile fun c =>
      !(c == ',' || c == '\n' || c == ';' || c == '（' || c == '）' || c == '(' || c == ')')
    some (String.mk nameChars, rest4.drop nameChars.length)

/-- `HOST_PATTERN.finditer`: scan left to right, non-overlapping (fuel is
the input length; every match consumes at least one character). -/
def finditerHost : Nat → List Char → List String
  | 0, _ => []
  | _, [] => []
  | fuel + 1, c :: rest =>
    match matchHostAt (c :: rest) with
    | some (name, rest5) => name :: finditerHost fuel rest5
    | none => finditerHost fuel rest

/-- `re.sub(alternation, "", s)` under `re.I` (fuel as above). -/
def subAllAux (alts : List String) : Nat → List Char → List Char
  | 0, cs => cs
  | _, [] => []
  | fuel + 1, c :: rest =>
    match firstAltMatch alts (c :: rest) with
    | some restAfter => subAllAux alts fuel restAfter
    | none => c :: subAllAux alts fuel rest

/-- `_extract_host_names(speaker_text)`. -/
def _extract_host_names (speaker_text : String) : List String :=
  if speaker_text.isEmpty then []
  else
    (finditerHost speaker_text.toList.length speaker_text.toList).filterMap fun nm =>
      let name := pyStrip nm
      let name :=
        if name.isEmpty then
          let cleaned := pyStrip (String.mk
            (subAllAux hostWords6 (speaker_text.toList.length + 1) speaker_text.toList))
          if cleaned.isEmpty then name else pyStrip (firstLineStr cleaned)
        else name
      if name.isEmpty then none else some name

/-- The punctuation class `[:：,，;；\(\)（）"']` mapped to a space. -/
def pyPunctToSpace (c : Char) : Char :=
  if c = ':' ∨ c = '：' ∨ c = ',' ∨ c = '，' ∨ c = ';' ∨ c = '；' ∨
     c = '(' ∨ c = ')' ∨ c = '（' ∨ c = '）' ∨ c = '"' ∨ c = '\'' then ' ' else c

/-- Python `str.split()` (whitespace runs, empties dropped). -/
def splitWsAux : List Char → List Char → List (List Char)
  | [], acc => if acc.isEmpty then [] else [acc.reverse]
  | c :: rest, acc =>
    if isPyWhitespace c then
      if acc.isEmpty then splitWsAux rest [] else acc.reverse :: splitWsAux rest []
    else splitWsAux rest (c :: acc)

/-- `_normalize_speaker_for_compare`: drop host words, blank out
punctuation, collapse whitespace, lower-case. -/
def _normalize_speaker_for_compare (so : Option String) : String :=
  match so with
  | none => ""
  | some s =>
    if s.isEmpty then ""
    else
      let c1 := subAllAux hostAltList (s.toList.length + 1) s.toList
      let c2 := c1.map pyPunctToSpace
      lowerStr (pyStrip (String.intercalate " " ((splitWsAux c2 []).map String.mk)))


/-! ## Special-session list with deduplication -/

/-- Python falsiness of an optional string (missing, `None`, or `""`). -/
def optStrFalsy (o : Option String) : Bool := (o.getD "").isEmpty

/-- `_special_exists(specials, title, speaker_norm)`. -/
def _special_exists (specials : List SpecialSession) (title : String)
    (speaker_norm : String) : Bool :=
  specials.any fun sp =>
    sp.title == title &&
      (let sp_norm := _normalize_speaker_for_compare sp.speaker
       if !speaker_norm.isEmpty then
         containsSub sp_norm speaker_norm || containsSub speaker_norm sp_norm
       else
         optStrFalsy sp.speaker)

/-- `_add_special`: append unless a duplicate exists; returns the new lists
and the index of the appended entry (`none` when suppressed). -/
def _add_special (specials : List SpecialSession)
    (special_times : List (Option (String × String))) (title : String)
    (after_speaker : Int) (duration : Option Nat) (speaker : Option String)
    (time_rng : Option (String × String)) :
    List SpecialSession × List (Option (String × String)) × Option Nat :=
  let speaker_norm := _normalize_speaker_for_compare speaker
  if _special_exists specials title speaker_norm then
    (specials, special_times, none)
  else
    let obj : SpecialSession :=
      { after_speaker := after_speaker, title := title, duration := duration,
        speaker := if optStrFalsy speaker then none else speaker }
    (specials ++ [obj], special_times ++ [time_rng], some specials.length)

/-! ## Parser state and the row loop -/

/-- One `timeline` entry: `("talk", talk_no)` or `("special", idx)`. -/
inductive TLEntry where
  | talk (no : Nat)
  | special (idx : Nat)
deriving Repr, DecidableEq

/-- One parsed talk row. -/
structure Talk where
  no : Nat
  topic : String
  name : String
  start_time : String
  end_time : String
deriving Repr, DecidableEq

/-- The mutable locals of the row loop of `parse_agenda`. -/
structure ParseState where
  talks : List Talk
  specials : List SpecialSession
  special_times : List (Option (String × String))
  timeline : List TLEntry
  first_time_start : Option String
  last_time_end : Option String
  talk_idx : Nat
  talk_durations : List Nat
deriving Repr, DecidableEq

/-- The loop state before the first row. -/
def initState : ParseState := ⟨[], [], [], [], none, none, 0, []⟩

/-- `_add_special` followed by the conditional `timeline.append`. -/
def addSpecialStep (σ : ParseState) (title : String) (after_speaker : Int)
    (duration : Option Nat) (speaker : Option String)
    (time_rng : Option (String × String)) : ParseState :=
  match _add_special σ.specials σ.special_times title after_speaker duration
      speaker time_rng with
  | (sp2, st2, none) => { σ with specials := sp2, special_times := st2 }
  | (sp2, st2, some idx) =>
    { σ with specials := sp2, special_times := st2, timeline := σ.timeline ++ [.special idx] }

/-- The `for hn in host_names` loop (each host added with `hn or None`). -/
def addHosts (σ : ParseState) (names : List String) (after_speaker : Int)
    (duration : Option Nat) (time_rng : Option (String × String)) : ParseState :=
  names.foldl
    (fun st hn => addSpecialStep st "主持人" after_speaker duration
      (if hn.isEmpty then none else some hn) time_rng) σ

/-- One iteration of the row loop; `none` models the `ValueError` a
malformed matched time raises out of `_minutes_between`. -/
def processRow (σ : ParseState) (row : String × String × String) :
    Option ParseState :=
  let time_text := _clean_text row.1
  let topic_text := _clean_text row.2.1
  let speaker_text := _clean_text row.2.2
  let time_rng := _extract_time_range time_text
  match (_match_special_title topic_text speaker_text).1 with
  | some norm_title =>
    let anchor : Int := if σ.talk_idx > 0 then (σ.talk_idx : Int) else 0
    match time_rng with
    | some (t1, t2) =>
      match _minutes_between t1 t2 with
      | none => none
      | some dur =>
        let σ := { σ with
          first_time_start :=
            (match σ.first_time_start with | none => some t1 | some x => some x),
          last_time_end := some t2 }
        let σ := addSpecialStep σ norm_title anchor (some dur)
          (if speaker_text.isEmpty then none else some speaker_text) (some (t1, t2))
        some (addHosts σ (_extract_host_names speaker_text) anchor (some dur)
          (some (t1, t2)))
    | none =>
      let σ := addSpecialStep σ norm_title anchor none
        (if speaker_text.isEmpty then none else some speaker_text) none
      some (addHosts σ (_extract_host_names speaker_text) anchor none none)
  | none =>
    match (match time_rng with
           | none => _extract_time_range topic_text
           | some r => some r) with
    | none =>
      let anchor : Int := if σ.talk_idx > 0 then (σ.talk_idx : Int) else 0
      some (addHosts σ (_extract_host_names speaker_text) anchor none none)
    | some (t1, t2) =>
      match _minutes_between t1 t2 with
      | none => none
      | some tmin =>
        let σ := { σ with
          first_time_start :=
            (match σ.first_time_start with | none => some t1 | some x => some x),
          last_time_end := some t2,
          talk_idx := σ.talk_idx + 1 }
        let name_short := pyStrip (firstLineStr speaker_text)
        let σ := { σ with
          talk_durations := σ.talk_durations ++ [tmin],
          talks := σ.talks ++
            [{ no := σ.talk_idx,
               topic := if topic_text.isEmpty then "(未命名主題)" else topic_text,
               name := name_short, start_time := t1, end_time := t2 }],
          timeline := σ.timeline ++ [.talk σ.talk_idx] }
        some (addHosts σ (_extract_host_names speaker_text) (σ.talk_idx : Int)
          (some tmin) (some (t1, t2)))

/-- The whole row loop. -/
def processRows : List (String × String × String) → ParseState → Option ParseState
  | [], σ => some σ
  | r :: rest, σ =>
    match processRow σ r with
    | none => none
    | some σ2 => processRows rest σ2

/-! ## The post-loop phases of `parse_agenda` -/

/-- `end_matches_day_end` of the post-loop check: the recorded time range
of the special at index `i` ends exactly at the overall last seen end
time. -/
def endMatches (σ : ParseState) (i : Nat) : Bool :=
  match σ.special_times.getD i none, σ.last_time_end with
  | some tr, some lte => tr.2 == lte
  | _, _ => false

/-- The closing-anchor condition of the post-loop check, for the special at
index `i`: its end time equals the last seen end time, or its canonical
title is tagged end-of-day. -/
def closingHeuristicB (σ : ParseState) (i : Nat) : Bool :=
  endMatches σ i ||
  (match σ.specials.get? i with
   | some sp => END_TITLES.contains sp.title
   | none => false)

/-- The post-loop check: force `after_speaker = 999` on the trailing
timeline entry when it is a special that looks like a real closing. -/
def finalizeSpecials (σ : ParseState) : List SpecialSession :=
  match σ.timeline.getLast? with
  | some (.special sidx) =>
    match σ.specials.get? sidx with
    | some sp =>
      if endMatches σ sidx || END_TITLES.contains sp.title then
        σ.specials.set sidx { sp with after_speaker := 999 }
      else σ.specials
    | none => σ.specials
  | _ => σ.specials

/-- Back-fill `start_time`/`end_time` into each special from
`special_times` (aligned by index). -/
def backfillTimes (specials : List SpecialSession)
    (times : List (Option (String × String))) : List SpecialSession :=
  specials.enum.map fun p =>
    match times.getD p.1 none with
    | some tr => { p.2 with start_time := some tr.1, end_time := some tr.2 }
    | none => { p.2 with start_time := none, end_time := none }

/-- Distinct values in first-encounter order (`Counter` key order). -/
def dedupFirstAux : List Nat → List Nat → List Nat
  | [], _ => []
  | x :: rest, seen =>
    if seen.contains x then dedupFirstAux rest seen
    else x :: dedupFirstAux rest (x :: seen)

/-- `Counter(l)` keys in insertion order. -/
def dedupFirst (l : List Nat) : List Nat := dedupFirstAux l []

/-- `Counter(l).most_common(1)[0][0]`: highest count, first-encountered
value on ties. -/
def counterMostCommon1 (l : List Nat) : Option Nat :=
  match dedupFirst l with
  | [] => none
  | k :: ks =>
    some (ks.foldl (fun best key => if l.count key > l.count best then key else best) k)

/-! ## The speakers array of `parse_agenda` -/

/-- A `base_list` entry while building the speakers array. -/
structure SpeakerItem where
  type : String
  topic : String
  name : String
  start_time : Option String
  end_time : Option String
deriving Repr, DecidableEq

/-- A finalized entry of the `speakers` output array. -/
structure SpeakerOut where
  no : Nat
  type : String
  topic : String
  name : String
  start_time : Option String
  end_time : Option String
deriving Repr, DecidableEq

/-- The ordered talks as the base of the speakers array. -/
def baseFromTalks (talks : List Talk) : List SpeakerItem :=
  talks.map fun t =>
    { type := "講者", topic := t.topic, name := t.name,
      start_time := some t.start_time, end_time := some t.end_time }

/-- `special_to_item(sp)`. -/
def special_to_item (sp : SpecialSession) : SpeakerItem :=
  let title := sp.title
  let typ :=
    if title = "致詞" then "致詞人"
    else if title = "綜合討論" then "綜合討論"
    else if title = "午間休息" ∨ title = "課間休息" then "休息"
    else if title = "大合照" then "大合照"
    else if title = "主持人" then "主持人"
    else title
  let sp_name_raw := sp.speaker.getD ""
  let sp_name := if sp_name_raw.isEmpty then "" else pyStrip (firstLineStr sp_name_raw)
  let sp_name := if sp_name.isEmpty ∧ typ = "綜合討論" then "所有講者" else sp_name
  { type := typ, topic := sp.title, name := sp_name,
    start_time := sp.start_time, end_time := sp.end_time }

/-- One iteration of the `for sp in specials` insertion loop: clamp the
anchor into an index, skip an anonymous host when a named host already
exists, else insert. -/
def insertSpecialIntoBase (base_list : List SpeakerItem) (sp : SpecialSession) :
    List SpeakerItem :=
  let item := special_to_item sp
  let insert_idx : Nat :=
    if sp.after_speaker ≥ 999 then base_list.length
    else (max 0 (min (base_list.length : Int) sp.after_speaker)).toNat
  if item.type = "主持人" ∧ item.name = "" ∧
      (base_list.any fun x => x.type == "主持人" && !x.name.isEmpty) then
    base_list
  else
    base_list.insertIdx insert_idx item

/-- The full insertion loop over the specials. -/
def buildBaseList (talks : List Talk) (specials : List SpecialSession) :
    List SpeakerItem :=
  specials.foldl insertSpecialIntoBase (baseFromTalks talks)

/-- Move the first host entry (if any) to index 0. -/
def moveFirstHostToFront (base : List SpeakerItem) : List SpeakerItem :=
  match base.findIdx? (fun it => it.type == "主持人") with
  | none => base
  | some i =>
    if i = 0 then base
    else
      match base.get? i with
      | some it => it :: base.eraseIdx i
      | none => base

/-- Re-number into the final speakers array. -/
def speakersOut (base : List SpeakerItem) : List SpeakerOut :=
  base.enum.map fun p =>
    { no := p.1, type := p.2.type,
      topic := if p.2.topic.isEmpty then p.2.type else p.2.topic,
      name := p.2.name, start_time := p.2.start_time, end_time := p.2.end_time }

/-- The minimal program structure returned by `parse_agenda` (the constant
`activities_contacts` boilerplate is omitted). -/
structure ProgramCore where
  eventNames : List String
  agenda_settings : AgendaConfig
  speakers : List SpeakerOut
deriving Repr, DecidableEq

/-- `parse_agenda(rows, event_name)` over the already-extracted 3-cell
table rows: skip a header row, run the row loop, resolve the closing
anchor, back-fill times, infer `speaker_minutes` as the mode, default the
window bounds, and assemble the speakers array. -/
def parse_agenda (rows : List (String × String × String)) (event_name : String) :
    Option ProgramCore :=
  let start_rows :=
    match rows with
    | [] => rows
    | r0 :: rest =>
      let heads := [_clean_text r0.1, _clean_text r0.2.1, _clean_text r0.2.2]
      if (heads.any fun h => containsSub h "時間") ∧
         (heads.any fun h => containsSub h "主題" || containsSub h "主旨") ∧
         (heads.any fun h => containsSub h "講者" || containsSub h "講師") then
        rest
      else rows
  match processRows start_rows initState with
  | none => none
  | some σ =>
    let specials2 := backfillTimes (finalizeSpecials σ) σ.special_times
    let sm := match counterMostCommon1 σ.talk_durations with
      | some m => m
      | none => 50
    let settings : AgendaConfig :=
      { start_time := σ.first_time_start.getD "09:00",
        end_time := σ.last_time_end.getD "17:00",
        speaker_minutes := sm, special_sessions := specials2 }
    some { eventNames := [event_name], agenda_settings := settings,
           speakers := speakersOut (moveFirstHostToFront
             (buildBaseList σ.talks specials2)) }


/-- Three talk rows with durations 30, 30, 45 (no special keywords). -/
def rowsModeA : List (String × String × String) :=
  [("09:00-09:30", "Alpha", "A"), ("09:30-10:00", "Beta", "B"),
   ("10:00-10:45", "Gamma", "C")]

/-- Two talk rows with durations 30 and 45 (a mode tie). -/
def rowsModeB : List (String × String × String) :=
  [("09:00-09:30", "Alpha", "A"), ("09:30-10:15", "Beta", "B")]

/-- Row-loop invariant: every special's anchor lies between 0 and the
current talk counter, and a special that is the last timeline entry is
anchored exactly at the current talk counter. -/
def ParseInv (σ : ParseState) : Prop :=
  (∀ sp ∈ σ.specials, 0 ≤ sp.after_speaker ∧ sp.after_speaker ≤ (σ.talk_idx : Int)) ∧
  (∀ i, σ.timeline.getLast? = some (.special i) →
    ∃ sp, σ.specials.get? i = some sp ∧ sp.after_speaker = (σ.talk_idx : Int))

/-- The single special produced by a one-row 致詞 agenda. -/
def spC4 : SpecialSession := ⟨0, "致詞", some 10, none, none, none⟩

/-- The loop state after the one-row 致詞 agenda. -/
def σC4 : ParseState :=
  ⟨[], [spC4], [some ("09:00", "09:10")], [.special 0],
   some "09:00", some "09:10", 0, []⟩

end ActivityMgmt

namespace ActivityMgmt

/-! ## Allocator lemmas -/

theorem fillEmpty_cons (avg : Nat) (s : SpecialSession) (t : List SpecialSession) :
    fillEmpty avg (s :: t) =
      (if durationMissing s.duration then { s with duration := some avg } else s) ::
        fillEmpty avg t := rfl

theorem durationMissing_fill (avg : Nat) (s : SpecialSession) :
    durationMissing ({ s with duration := some avg } : SpecialSession).duration =
      (avg == 0) := rfl

theorem fillEmpty_eq_self (avg : Nat) (l : List SpecialSession)
    (h : l.filter (fun s => durationMissing s.duration) = []) : fillEmpty avg l = l := by
  induction l with
  | nil => rfl
  | cons s t ih =>
    rw [List.filter_cons] at h
    by_cases hm : durationMissing s.duration
    · rw [if_pos hm] at h
      exact absurd h (by simp)
    · rw [if_neg hm] at h
      rw [fillEmpty_cons, if_neg hm, ih h]

theorem filter_missing_fillEmpty (avg : Nat) (l : List SpecialSession) (h : avg ≠ 0) :
    (fillEmpty avg l).filter (fun s => durationMissing s.duration) = [] := by
  rw [List.filter_eq_nil_iff]
  intro x hx
  obtain ⟨s, hs, rfl⟩ := List.mem_map.mp (by simpa [fillEmpty] using hx)
  by_cases hm : durationMissing s.duration
  · rw [if_pos hm]
    simp [durationMissing, h]
  · rw [if_neg hm]
    exact hm

theorem filter_keep_fillEmpty_zero (l : List SpecialSession) :
    (fillEmpty 0 l).filter (fun s => ! durationMissing s.duration) =
      l.filter (fun s => ! durationMissing s.duration) := by
  induction l with
  | nil => rfl
  | cons s t ih =>
    by_cases hm : durationMissing s.duration
    · rw [fillEmpty_cons, if_pos hm, List.filter_cons, List.filter_cons,
        if_neg (by simp [durationMissing]), if_neg (by simp [hm])]
      exact ih
    · rw [fillEmpty_cons, if_neg hm, List.filter_cons, List.filter_cons, ih]

theorem length_filter_missing_fillEmpty_zero (l : List SpecialSession) :
    ((fillEmpty 0 l).filter (fun s => durationMissing s.duration)).length =
      (l.filter (fun s => durationMissing s.duration)).length := by
  induction l with
  | nil => rfl
  | cons s t ih =>
    by_cases hm : durationMissing s.duration
    · rw [fillEmpty_cons, if_pos hm, List.filter_cons, List.filter_cons,
        if_pos (show durationMissing ({ s with duration := some 0 } :
          SpecialSession).duration = true from rfl), if_pos hm]
      simpa using ih
    · rw [fillEmpty_cons, if_neg hm, List.filter_cons, List.filter_cons]
      by_cases hk : durationMissing s.duration = true
      · exact absurd hk hm
      · rw [if_neg hk, if_neg hk]
        exact ih

theorem fillEmpty_zero_idem (l : List SpecialSession) :
    fillEmpty 0 (fillEmpty 0 l) = fillEmpty 0 l := by
  induction l with
  | nil => rfl
  | cons s t ih =>
    by_cases hm : durationMissing s.duration
    · rw [fillEmpty_cons, if_pos hm, fillEmpty_cons,
        if_pos (show durationMissing ({ s with duration := some 0 } :
          SpecialSession).duration = true from rfl), ih]
    · rw [fillEmpty_cons, if_neg hm, fillEmpty_cons, if_neg hm, ih]

theorem totalMinutes_congr (c c' : AgendaConfig) (h1 : c'.start_time = c.start_time)
    (h2 : c'.end_time = c.end_time) : totalMinutes c' = totalMinutes c := by
  unfold totalMinutes
  rw [h1, h2]

/-- Re-running the allocation body on an already-filled config returns that
config unchanged (the key step of idempotence). -/
theorem distributeWith_refill (config : AgendaConfig) (n : Nat) (tm : Int)
    (hneg : ¬ tm - (totalKnown config n : Int) < 0)
    (he : ¬ (emptyItems config).isEmpty = true) :
    (distributeWith
        { config with special_sessions :=
            (fillEmpty (pyRoundDiv (tm - (totalKnown config n : Int)).toNat
              (emptyItems config).length) config.special_sessions) } n tm).1 =
      { config with special_sessions :=
          (fillEmpty (pyRoundDiv (tm - (totalKnown config n : Int)).toNat
            (emptyItems config).length) config.special_sessions) } := by
  have he' : (emptyItems config).isEmpty = false := by simpa using he
  have hlen0 : (emptyItems config).length ≠ 0 := by
    intro h0
    rw [List.length_eq_zero] at h0
    rw [h0] at he'
    exact absurd he' (by simp)
  by_cases ha : pyRoundDiv (tm - (totalKnown config n : Int)).toNat
      (emptyItems config).length = 0
  · -- the average is 0: the second run repeats the same zero-fill verbatim
    rw [ha]
    have hknown : totalKnown
        { config with special_sessions := fillEmpty 0 config.special_sessions } n =
        totalKnown config n := by
      unfold totalKnown
      dsimp only
      rw [filter_keep_fillEmpty_zero]
    have hlen : (emptyItems
        { config with special_sessions := fillEmpty 0 config.special_sessions }).length =
        (emptyItems config).length := by
      unfold emptyItems
      dsimp only
      exact length_filter_missing_fillEmpty_zero _
    have hne1 : (emptyItems
        { config with special_sessions := fillEmpty 0 config.special_sessions }).isEmpty
        = false := by
      cases hE : emptyItems
          { config with special_sessions := fillEmpty 0 config.special_sessions } with
      | nil => rw [hE] at hlen; exact absurd hlen.symm hlen0
      | cons a t => rfl
    unfold distributeWith
    rw [hknown, if_neg hneg, if_neg (by rw [hne1]; simp), hlen, ha]
    dsimp only
    rw [fillEmpty_zero_idem]
  · -- the average is positive: every duration became truthy, nothing to fill
    have hempty1 : (emptyItems
        { config with special_sessions :=
            (fillEmpty (pyRoundDiv (tm - (totalKnown config n : Int)).toNat
              (emptyItems config).length) config.special_sessions) }).isEmpty = true := by
      show ((fillEmpty (pyRoundDiv (tm - (totalKnown config n : Int)).toNat
          (emptyItems config).length) config.special_sessions).filter
          (fun s => durationMissing s.duration)).isEmpty = true
      rw [filter_missing_fillEmpty _ _ ha]
      rfl
    by_cases hneg1 : tm - (totalKnown
        { config with special_sessions :=
            (fillEmpty (pyRoundDiv (tm - (totalKnown config n : Int)).toNat
              (emptyItems config).length) config.special_sessions) } n : Int) < 0
    · unfold distributeWith
      rw [if_pos hneg1]
    · unfold distributeWith
      rw [if_neg hneg1, if_pos hempty1]

/-! ## Claim theorems: duration allocator -/

/-- C1: on the end-to-end scenario (09:00–12:00, 30-minute talks, four
speakers, a 10-minute "Remarks" before the first speaker and a null-duration
"Survey & Post-test" after speaker 4) the allocator computes
`total_minutes = 180`, `total_known = 130`, `remaining = 50`, assigns the 50
remaining minutes to the null-duration session, and the composer emits
exactly the six expected rows in order with the expected times. -/
theorem claim_C1 :
    totalMinutes cfgScenario = some 180 ∧
    totalKnown cfgScenario 4 = 130 ∧
    distribute_empty_durations cfgScenario 4 =
      some (cfgScenarioFilled, [AllocMessage.distributedInfo 50 50]) ∧
    (generate_agenda [] "20250922" cfgScenarioFilled speakersScenario).map
        (List.map fun r => (r.session_title, r.start_time, r.end_time)) =
      some [("Remarks", "09:00", "09:10"), ("Talk1", "09:10", "09:40"),
            ("Talk2", "09:40", "10:10"), ("Talk3", "10:10", "10:40"),
            ("Talk4", "10:40", "11:10"), ("Survey & Post-test", "11:10", "12:00")] := by
  refine ⟨rfl, rfl, rfl, rfl⟩

/-- C2 counterexample: on `cfgDeficit` (deficit of 40 minutes) the allocator
does report the warning with the deficit, but it returns the config
unchanged: the special session that arrived with a null duration is *not*
assigned a duration of 0 — its duration is still `none`, refuting the claim
that allocation proceeds treating the remaining budget as 0. -/
theorem claim_C2_counterexample :
    distribute_empty_durations cfgDeficit 2 =
      some (cfgDeficit, [AllocMessage.insufficientTime 40]) ∧
    cfgDeficit.special_sessions.map (fun s => s.duration) = [none] := by
  refine ⟨rfl, rfl⟩

/-- C2 (amended): whenever `total_minutes - total_known` is negative the
allocator reports an insufficient-time warning carrying the deficit in
minutes and returns non-fatally, but allocation does **not** proceed: the
config is returned unchanged, so special sessions that arrived with a null
duration keep their null duration. -/
theorem claim_C2 (config : AgendaConfig) (speaker_count : Nat) (tm : Int)
    (htm : totalMinutes config = some tm)
    (hneg : tm - (totalKnown config speaker_count : Int) < 0) :
    distribute_empty_durations config speaker_count =
      some (config,
        [AllocMessage.insufficientTime ((totalKnown config speaker_count : Int) - tm)]) := by
  unfold distribute_empty_durations
  rw [htm, Option.map_some']
  unfold distributeWith
  rw [if_pos hneg, neg_sub]

/-- Witness for C2 (amended) at `cfgDeficit` with two speakers. -/
theorem claim_C2_witness :
    distribute_empty_durations cfgDeficit 2 =
      some (cfgDeficit, [AllocMessage.insufficientTime 40]) := by
  have h := claim_C2 cfgDeficit 2 60 (by decide) (by decide)
  simpa using h

/-- C9: the allocator is idempotent on its own output — if a first call
returns config `c₁`, a second call on `c₁` (same speaker count) succeeds and
returns exactly `c₁`, every field (including all special-session durations)
unchanged. -/
theorem claim_C9 (config : AgendaConfig) (n : Nat) (c₁ : AgendaConfig)
    (msgs : List AllocMessage)
    (h : distribute_empty_durations config n = some (c₁, msgs)) :
    ∃ msgs', distribute_empty_durations c₁ n = some (c₁, msgs') := by
  unfold distribute_empty_durations at h
  cases htm : totalMinutes config with
  | none => rw [htm] at h; exact absurd h (by simp)
  | some tm =>
    rw [htm, Option.map_some'] at h
    have hw : distributeWith config n tm = (c₁, msgs) := Option.some.inj h
    by_cases hneg : tm - (totalKnown config n : Int) < 0
    · -- deficit: the first call already returned the config unchanged
      have hc : c₁ = config := by
        unfold distributeWith at hw
        rw [if_pos hneg] at hw
        exact (Prod.mk.injEq _ _ _ _ ▸ hw).1.symm
      subst hc
      refine ⟨msgs, ?_⟩
      unfold distribute_empty_durations
      rw [htm, Option.map_some', hw]
    · by_cases he : (emptyItems config).isEmpty
      · -- nothing to fill: the first call returned the config unchanged
        have hc : c₁ = config := by
          unfold distributeWith at hw
          rw [if_neg hneg, if_pos he] at hw
          exact (Prod.mk.injEq _ _ _ _ ▸ hw).1.symm
        subst hc
        refine ⟨msgs, ?_⟩
        unfold distribute_empty_durations
        rw [htm, Option.map_some', hw]
      · -- fill branch
        have hc : c₁ = { config with special_sessions :=
            (fillEmpty (pyRoundDiv (tm - (totalKnown config n : Int)).toNat
              (emptyItems config).length) config.special_sessions) } := by
          unfold distributeWith at hw
          rw [if_neg hneg, if_neg he] at hw
          exact (Prod.mk.injEq _ _ _ _ ▸ hw).1.symm
        subst hc
        have hfst := distributeWith_refill config n tm hneg he
        refine ⟨(distributeWith { config with special_sessions :=
            (fillEmpty (pyRoundDiv (tm - (totalKnown config n : Int)).toNat
              (emptyItems config).length) config.special_sessions) } n tm).2, ?_⟩
        have htm1 : totalMinutes { config with special_sessions :=
            (fillEmpty (pyRoundDiv (tm - (totalKnown config n : Int)).toNat
              (emptyItems config).length) config.special_sessions) } = some tm := htm
        unfold distribute_empty_durations
        rw [htm1, Option.map_some']
        exact congrArg some (congrArg
          (fun x => (x, (distributeWith { config with special_sessions :=
            (fillEmpty (pyRoundDiv (tm - (totalKnown config n : Int)).toNat
              (emptyItems config).length) config.special_sessions) } n tm).2)) hfst)

end ActivityMgmt

namespace ActivityMgmt

/-- Witness for C9: `cfgMixed` allocates to `cfgMixedFilled`; re-allocating
`cfgMixedFilled` returns it unchanged. -/
theorem claim_C9_witness :
    ∃ msgs', distribute_empty_durations cfgMixedFilled 1 = some (cfgMixedFilled, msgs') :=
  claim_C9 cfgMixed 1 cfgMixedFilled [AllocMessage.distributedInfo 30 15] (by decide)

/-- With a non-negative remaining budget, allocation is exactly the
`fillEmpty` map over the session list (shared helper for C3 and C10). -/
theorem distribute_fill_of_nonneg (config : AgendaConfig) (n : Nat) (tm : Int)
    (htm : totalMinutes config = some tm)
    (hpos : 0 ≤ tm - (totalKnown config n : Int)) :
    ∃ msgs, distribute_empty_durations config n =
      some ({ config with special_sessions :=
        (fillEmpty (pyRoundDiv (tm - (totalKnown config n : Int)).toNat
          (emptyItems config).length) config.special_sessions) }, msgs) := by
  have hneg : ¬ tm - (totalKnown config n : Int) < 0 := not_lt.mpr hpos
  by_cases he : (emptyItems config).isEmpty
  · refine ⟨[], ?_⟩
    unfold distribute_empty_durations
    rw [htm, Option.map_some']
    unfold distributeWith
    rw [if_neg hneg, if_pos he]
    have hnil : config.special_sessions.filter (fun s => durationMissing s.duration) = [] := by
      have : emptyItems config = [] := by
        cases hE : emptyItems config with
        | nil => rfl
        | cons a t => rw [hE] at he; exact absurd he (by simp)
      simpa [emptyItems] using this
    rw [fillEmpty_eq_self _ _ hnil]
  · refine ⟨[AllocMessage.distributedInfo (tm - (totalKnown config n : Int))
      (pyRoundDiv (tm - (totalKnown config n : Int)).toNat
        (emptyItems config).length)], ?_⟩
    unfold distribute_empty_durations
    rw [htm, Option.map_some']
    unfold distributeWith
    rw [if_neg hneg, if_neg he]

/-- C10: with a non-negative remaining budget, the allocator returns exactly
the input config with its special-session list mapped by `fillEmpty`: every
session whose duration is falsy (missing/null or 0) — and only those — has
its duration overwritten with the rounded average, whose computation
(`totalKnown`) counts only the non-falsy durations; every other session and
every other config field is returned unchanged. -/
theorem claim_C10 (config : AgendaConfig) (n : Nat) (tm : Int)
    (htm : totalMinutes config = some tm)
    (hpos : 0 ≤ tm - (totalKnown config n : Int)) :
    ∃ msgs, distribute_empty_durations config n =
      some ({ config with special_sessions :=
        (fillEmpty (pyRoundDiv (tm - (totalKnown config n : Int)).toNat
          (emptyItems config).length) config.special_sessions) }, msgs) :=
  distribute_fill_of_nonneg config n tm htm hpos

/-- Witness for C10 at `cfgMixed`: the zero-duration and the null-duration
sessions both receive 15 minutes, the 20-minute one is untouched. -/
theorem claim_C10_witness :
    (∃ msgs, distribute_empty_durations cfgMixed 1 =
      some ({ cfgMixed with special_sessions :=
        (fillEmpty (pyRoundDiv ((60 : Int) - (totalKnown cfgMixed 1 : Int)).toNat
          (emptyItems cfgMixed).length) cfgMixed.special_sessions) }, msgs)) ∧
    fillEmpty (pyRoundDiv ((60 : Int) - (totalKnown cfgMixed 1 : Int)).toNat
        (emptyItems cfgMixed).length) cfgMixed.special_sessions =
      cfgMixedFilled.special_sessions :=
  ⟨claim_C10 cfgMixed 1 60 (by decide) (by decide), by decide⟩

end ActivityMgmt

namespace ActivityMgmt

/-! ## Composer lemmas -/

theorem insert_isSome (tmpl : SessionTypeTemplate) (ed : String) :
    ∀ (sl : List SpecialSession) (agenda : List AgendaRow) (t : Nat) (idx : Int),
      (∀ s ∈ sl, s.after_speaker = idx → s.duration.isSome) →
      (insert_special_sessions tmpl ed agenda t idx sl).isSome
  | [], _, _, _, _ => rfl
  | s :: rest, agenda, t, idx, h => by
    unfold insert_special_sessions
    by_cases hs : s.after_speaker = idx
    · rw [if_pos hs]
      obtain ⟨d, hd⟩ := Option.isSome_iff_exists.mp (h s (by simp) hs)
      rw [hd]
      exact insert_isSome tmpl ed rest _ _ idx (fun x hx hax => h x (by simp [hx]) hax)
    · rw [if_neg hs]
      exact insert_isSome tmpl ed rest _ _ idx (fun x hx hax => h x (by simp [hx]) hax)

theorem insert_spec (tmpl : SessionTypeTemplate) (ed : String) :
    ∀ (sl : List SpecialSession) (agenda : List AgendaRow) (t : Nat) (idx : Int)
      (res : List AgendaRow × Nat),
      insert_special_sessions tmpl ed agenda t idx sl = some res →
      ∃ extra, res.1 = agenda ++ extra ∧
        extra.map rowTag =
          (sl.filter fun s => s.after_speaker == idx).map
            (fun s => (s.title, (none : Option String))) ∧
        res.2 = t +
          ((sl.filter fun s => s.after_speaker == idx).map
            (fun s => s.duration.getD 0)).sum
  | [], agenda, t, idx, res, h => by
    cases Option.some.inj h
    exact ⟨[], by simp, by simp, by simp⟩
  | s :: rest, agenda, t, idx, res, h => by
    unfold insert_special_sessions at h
    by_cases hs : s.after_speaker = idx
    · rw [if_pos hs] at h
      cases hd : s.duration with
      | none => rw [hd] at h; exact absurd h (by simp)
      | some d =>
        rw [hd] at h
        obtain ⟨extra, h1, h2, h3⟩ := insert_spec tmpl ed rest _ _ idx res h
        refine ⟨({ session_id := generate_session_id ed (agenda.length + 1),
                   start_time := formatHHMM t,
                   end_time := formatHHMM (t + d),
                   session_title := s.title,
                   speaker_name := none,
                   session_type := classify_session_type tmpl s.title } : AgendaRow)
                 :: extra, ?_, ?_, ?_⟩
        · rw [h1]
          simp
        · rw [List.map_cons, h2, List.filter_cons, if_pos (by simp [hs]), List.map_cons]
          rfl
        · rw [h3, List.filter_cons, if_pos (by simp [hs]), List.map_cons, List.sum_cons,
            hd]
          show t + d + _ = t + (d + _)
          omega
    · rw [if_neg hs] at h
      obtain ⟨extra, h1, h2, h3⟩ := insert_spec tmpl ed rest _ _ idx res h
      refine ⟨extra, h1, ?_, ?_⟩
      · rw [h2, List.filter_cons, if_neg (by simp [hs])]
      · rw [h3, List.filter_cons, if_neg (by simp [hs])]

end ActivityMgmt

namespace ActivityMgmt

theorem steps_isSome (tmpl : SessionTypeTemplate) (ed : String) (config : AgendaConfig) :
    ∀ (speakers : List Speaker) (agenda : List AgendaRow) (t : Nat),
      (∀ s ∈ config.special_sessions, s.duration.isSome) →
      (generate_agenda_steps tmpl ed config speakers agenda t).isSome
  | [], _, _, _ => rfl
  | sp :: rest, agenda, t, h => by
    unfold generate_agenda_steps
    dsimp only
    cases hins : insert_special_sessions tmpl ed
        (agenda ++ [{ session_id := generate_session_id ed (agenda.length + 1),
                      start_time := formatHHMM t,
                      end_time := formatHHMM (t + config.speaker_minutes),
                      session_title := sp.title,
                      speaker_name := some sp.speaker_name,
                      session_type := classify_session_type tmpl "演講" }])
        (t + config.speaker_minutes) sp.index config.special_sessions with
    | none =>
      have := insert_isSome tmpl ed config.special_sessions
        (agenda ++ [{ session_id := generate_session_id ed (agenda.length + 1),
                      start_time := formatHHMM t,
                      end_time := formatHHMM (t + config.speaker_minutes),
                      session_title := sp.title,
                      speaker_name := some sp.speaker_name,
                      session_type := classify_session_type tmpl "演講" }])
        (t + config.speaker_minutes) sp.index (fun s hs _ => h s hs)
      rw [hins] at this
      exact absurd this (by simp)
    | some p =>
      obtain ⟨a1, t1⟩ := p
      exact steps_isSome tmpl ed config rest a1 t1 h

theorem steps_spec (tmpl : SessionTypeTemplate) (ed : String) (config : AgendaConfig) :
    ∀ (speakers : List Speaker) (agenda : List AgendaRow) (t : Nat)
      (res : List AgendaRow × Nat),
      generate_agenda_steps tmpl ed config speakers agenda t = some res →
      ∃ extra, res.1 = agenda ++ extra ∧
        extra.map rowTag =
          speakers.flatMap (fun sp => (sp.title, some sp.speaker_name) ::
            specialTags config sp.index) ∧
        res.2 = t + speakers.length * config.speaker_minutes +
          (speakers.map fun sp => specialSum config sp.index).sum
  | [], agenda, t, res, h => by
    cases Option.some.inj h
    exact ⟨[], by simp, rfl, by simp⟩
  | sp :: rest, agenda, t, res, h => by
    unfold generate_agenda_steps at h
    dsimp only at h
    cases hins : insert_special_sessions tmpl ed
        (agenda ++ [{ session_id := generate_session_id ed (agenda.length + 1),
                      start_time := formatHHMM t,
                      end_time := formatHHMM (t + config.speaker_minutes),
                      session_title := sp.title,
                      speaker_name := some sp.speaker_name,
                      session_type := classify_session_type tmpl "演講" }])
        (t + config.speaker_minutes) sp.index config.special_sessions with
    | none => rw [hins] at h; exact absurd h (by simp)
    | some p =>
      obtain ⟨a1, t1⟩ := p
      rw [hins] at h
      obtain ⟨e2, g1, g2, g3⟩ := insert_spec tmpl ed config.special_sessions _ _ sp.index
        (a1, t1) hins
      have g1' : a1 = _ := g1
      have g3' : t1 = _ := g3
      obtain ⟨e3, s1, s2, s3⟩ := steps_spec tmpl ed config rest a1 t1 res h
      refine ⟨({ session_id := generate_session_id ed (agenda.length + 1),
                 start_time := formatHHMM t,
                 end_time := formatHHMM (t + config.speaker_minutes),
                 session_title := sp.title,
                 speaker_name := some sp.speaker_name,
                 session_type := classify_session_type tmpl "演講" } : AgendaRow)
               :: (e2 ++ e3), ?_, ?_, ?_⟩
      · rw [s1, g1']
        simp
      · rw [List.map_cons, List.map_append, s2, g2, List.flatMap_cons]
        simp [rowTag, specialTags]
      · rw [s3, g3', List.length_cons, List.map_cons, List.sum_cons]
        simp only [specialSum]
        ring

end ActivityMgmt

namespace ActivityMgmt

/-- Full characterization of one composition run: the row tags decompose as
anchor-0 specials, then per-speaker talk/special groups, then anchor-999
specials, and the final cursor advanced by every emitted duration. -/
theorem generate_total_spec (tmpl : SessionTypeTemplate) (ed : String)
    (config : AgendaConfig) (speakers : List Speaker) (rows : List AgendaRow)
    (tfin t0 : Nat) (h0 : parseHHMM config.start_time = some t0)
    (h : generate_agenda_total tmpl ed config speakers = some (rows, tfin)) :
    rows.map rowTag =
      specialTags config 0 ++
        speakers.flatMap (fun sp => (sp.title, some sp.speaker_name) ::
          specialTags config sp.index) ++ specialTags config 999 ∧
    tfin = t0 + speakers.length * config.speaker_minutes +
      (specialSum config 0 +
        ((speakers.map fun sp => specialSum config sp.index).sum +
          specialSum config 999)) := by
  unfold generate_agenda_total at h
  rw [h0] at h
  dsimp only at h
  cases h1 : insert_special_sessions tmpl ed [] t0 0 config.special_sessions with
  | none => rw [h1] at h; exact absurd h (by simp)
  | some p1 =>
    obtain ⟨a1, t1⟩ := p1
    rw [h1] at h
    dsimp only at h
    cases h2 : generate_agenda_steps tmpl ed config speakers a1 t1 with
    | none => rw [h2] at h; exact absurd h (by simp)
    | some p2 =>
      obtain ⟨a2, t2⟩ := p2
      rw [h2] at h
      dsimp only at h
      obtain ⟨e1, i1, i2, i3⟩ := insert_spec tmpl ed config.special_sessions [] t0 0
        (a1, t1) h1
      have i1' : a1 = _ := i1
      have i3' : t1 = _ := i3
      obtain ⟨e2, s1, s2, s3⟩ := steps_spec tmpl ed config speakers a1 t1 (a2, t2) h2
      have s1' : a2 = _ := s1
      have s3' : t2 = _ := s3
      obtain ⟨e3, j1, j2, j3⟩ := insert_spec tmpl ed config.special_sessions a2 t2 999
        (rows, tfin) h
      have j1' : rows = _ := j1
      have j3' : tfin = _ := j3
      constructor
      · rw [j1', s1', i1']
        simp only [List.nil_append, List.map_append, i2, s2, j2]
        rw [show specialTags config 0 =
          (config.special_sessions.filter fun s => s.after_speaker == (0 : Int)).map
            (fun s => (s.title, (none : Option String))) from rfl]
        rw [show specialTags config 999 =
          (config.special_sessions.filter fun s => s.after_speaker == (999 : Int)).map
            (fun s => (s.title, (none : Option String))) from rfl]
      · rw [j3', s3', i3']
        simp only [specialSum, List.nil_append]
        ring

end ActivityMgmt

namespace ActivityMgmt

theorem sum_map_filter_split (f : SpecialSession → Nat) (p : SpecialSession → Bool) :
    ∀ l : List SpecialSession,
      ((l.filter p).map f).sum + ((l.filter fun s => ! p s).map f).sum = (l.map f).sum
  | [] => rfl
  | s :: t => by
    rw [List.filter_cons, List.filter_cons]
    by_cases hp : p s
    · rw [if_pos hp, if_neg (by simp [hp])]
      simp only [List.map_cons, List.sum_cons]
      have := sum_map_filter_split f p t
      omega
    · have hp' : p s = false := by simpa using hp
      rw [if_neg hp, if_pos (by simp [hp'])]
      simp only [List.map_cons, List.sum_cons]
      have := sum_map_filter_split f p t
      omega

theorem sum_fibers (f : SpecialSession → Nat) :
    ∀ (points : List Int) (l : List SpecialSession), points.Nodup →
      (∀ s ∈ l, s.after_speaker ∈ points) →
      (points.map fun q =>
        ((l.filter fun s => s.after_speaker == q).map f).sum).sum = (l.map f).sum
  | [], l, _, hcov => by
    cases l with
    | nil => rfl
    | cons s t => exact absurd (hcov s (by simp)) (by simp)
  | q :: ps, l, hnd, hcov => by
    have hq_not : q ∉ ps := (List.nodup_cons.mp hnd).1
    have hnd' : ps.Nodup := (List.nodup_cons.mp hnd).2
    have hfib : ∀ r ∈ ps, (l.filter fun s => s.after_speaker == r) =
        ((l.filter fun s => ! (s.after_speaker == q)).filter
          fun s => s.after_speaker == r) := by
      intro r hr
      rw [List.filter_filter]
      apply List.filter_congr
      intro s _
      by_cases hs : s.after_speaker = r
      · have hneq : r ≠ q := fun hrq2 => hq_not (hrq2 ▸ hr)
        simp [hs, hneq]
      · simp [hs]
    have hrest : (ps.map fun r =>
        ((l.filter fun s => s.after_speaker == r).map f).sum).sum =
        (ps.map fun r =>
          (((l.filter fun s => ! (s.after_speaker == q)).filter
            fun s => s.after_speaker == r).map f).sum).sum := by
      apply congrArg List.sum
      apply List.map_congr_left
      intro r hr
      rw [hfib r hr]
    have hcov' : ∀ s ∈ (l.filter fun s => ! (s.after_speaker == q)),
        s.after_speaker ∈ ps := by
      intro s hs
      obtain ⟨hmem, hne⟩ := List.mem_filter.mp hs
      have := hcov s hmem
      simp at hne
      simpa [hne] using this
    rw [List.map_cons, List.sum_cons, hrest,
      sum_fibers f ps (l.filter fun s => ! (s.after_speaker == q)) hnd' hcov']
    exact sum_map_filter_split f (fun s => s.after_speaker == q) l

theorem sum_fillEmpty (avg : Nat) :
    ∀ l : List SpecialSession,
      ((fillEmpty avg l).map fun s => s.duration.getD 0).sum =
        ((l.filter fun s => ! durationMissing s.duration).map
          fun s => s.duration.getD 0).sum +
          avg * (l.filter fun s => durationMissing s.duration).length
  | [] => rfl
  | s :: t => by
    rw [fillEmpty_cons, List.filter_cons, List.filter_cons]
    by_cases hm : durationMissing s.duration
    · rw [if_pos hm, if_neg (by simp [hm]), if_pos hm]
      simp only [List.map_cons, List.sum_cons, List.length_cons]
      have := sum_fillEmpty avg t
      have hd : ({ s with duration := some avg } : SpecialSession).duration.getD 0 = avg :=
        rfl
      rw [hd]
      rw [this]
      ring
    · have hm' : durationMissing s.duration = false := by simpa using hm
      rw [if_neg hm, if_pos (by simp [hm']), if_neg hm]
      simp only [List.map_cons, List.sum_cons]
      have := sum_fillEmpty avg t
      omega

theorem pyRoundDiv_dvd (a b : Nat) (hb : b ≠ 0) (h : b ∣ a) :
    b * pyRoundDiv a b = a := by
  obtain ⟨c, rfl⟩ := h
  have hmod : (b * c) % b = 0 := Nat.mul_mod_right b c
  have hdiv : (b * c) / b = c := Nat.mul_div_cancel_left c (Nat.pos_of_ne_zero hb)
  simp [pyRoundDiv, hmod, hdiv, Nat.pos_of_ne_zero hb]

theorem fillEmpty_duration_isSome (avg : Nat) (l : List SpecialSession) :
    ∀ s ∈ fillEmpty avg l, s.duration.isSome := by
  intro x hx
  obtain ⟨s, _, rfl⟩ := List.mem_map.mp (by simpa [fillEmpty] using hx)
  by_cases hm : durationMissing s.duration
  · rw [if_pos hm]
    rfl
  · rw [if_neg hm]
    cases hd : s.duration with
    | none => exact absurd (by simp [durationMissing, hd]) hm
    | some d => rfl

theorem fillEmpty_after_mem (avg : Nat) (l : List SpecialSession) :
    ∀ x ∈ fillEmpty avg l, ∃ s ∈ l, x.after_speaker = s.after_speaker := by
  intro x hx
  obtain ⟨s, hs, rfl⟩ := List.mem_map.mp (by simpa [fillEmpty] using hx)
  by_cases hm : durationMissing s.duration
  · rw [if_pos hm]
    exact ⟨s, hs, rfl⟩
  · rw [if_neg hm]
    exact ⟨s, hs, rfl⟩

theorem rowTag_speaker_none (extra : List AgendaRow) (idx : Int) (config : AgendaConfig)
    (hmap : extra.map rowTag = specialTags config idx) :
    ∀ r ∈ extra, r.speaker_name = none := by
  intro r hr
  have hmem : rowTag r ∈ specialTags config idx := by
    rw [← hmap]
    exact List.mem_map_of_mem rowTag hr
  simp only [specialTags, List.mem_map, List.mem_filter] at hmem
  obtain ⟨s, _, hs⟩ := hmem
  have := congrArg Prod.snd hs
  simpa [rowTag] using this.symm

end ActivityMgmt

namespace ActivityMgmt

/-- C8: when every speaker sequence number is positive and below 999, the
composed agenda splits as `pre ++ mid ++ post`: `pre` carries exactly the
anchor-0 specials (in list order), `post` exactly the anchor-999 specials
(in list order), and `mid` the talks in speaker order, each immediately
followed by the specials anchored at that speaker's number, in list order.
`pre` and `post` contain no talk row, so every anchor-0 special is strictly
before every talk and every anchor-999 special strictly after all talks,
and same-anchor specials keep their `special_sessions` order. -/
theorem claim_C8 (tmpl : SessionTypeTemplate) (ed : String) (config : AgendaConfig)
    (speakers : List Speaker) (rows : List AgendaRow)
    (_hidx : ∀ sp ∈ speakers, 0 < sp.index ∧ sp.index < 999)
    (h : generate_agenda tmpl ed config speakers = some rows) :
    ∃ pre mid post,
      rows = pre ++ mid ++ post ∧
      pre.map rowTag = specialTags config 0 ∧
      mid.map rowTag = speakers.flatMap (fun sp =>
        (sp.title, some sp.speaker_name) :: specialTags config sp.index) ∧
      post.map rowTag = specialTags config 999 ∧
      (∀ r ∈ pre, r.speaker_name = none) ∧
      (∀ r ∈ post, r.speaker_name = none) := by
  unfold generate_agenda at h
  cases ht : generate_agenda_total tmpl ed config speakers with
  | none => rw [ht] at h; exact absurd h (by simp)
  | some p =>
    obtain ⟨rows0, tfin⟩ := p
    rw [ht] at h
    have hr : rows0 = rows := by simpa using h
    subst hr
    unfold generate_agenda_total at ht
    cases hp : parseHHMM config.start_time with
    | none => rw [hp] at ht; exact absurd ht (by simp)
    | some t0 =>
      rw [hp] at ht
      dsimp only at ht
      cases h1 : insert_special_sessions tmpl ed [] t0 0 config.special_sessions with
      | none => rw [h1] at ht; exact absurd ht (by simp)
      | some p1 =>
        obtain ⟨a1, t1⟩ := p1
        rw [h1] at ht
        dsimp only at ht
        cases h2 : generate_agenda_steps tmpl ed config speakers a1 t1 with
        | none => rw [h2] at ht; exact absurd ht (by simp)
        | some p2 =>
          obtain ⟨a2, t2⟩ := p2
          rw [h2] at ht
          dsimp only at ht
          obtain ⟨e1, i1, i2, -⟩ := insert_spec tmpl ed config.special_sessions [] t0 0
            (a1, t1) h1
          have i1' : a1 = _ := i1
          obtain ⟨e2, s1, s2, -⟩ := steps_spec tmpl ed config speakers a1 t1 (a2, t2) h2
          have s1' : a2 = _ := s1
          obtain ⟨e3, j1, j2, -⟩ := insert_spec tmpl ed config.special_sessions a2 t2 999
            (rows0, tfin) ht
          have j1' : rows0 = _ := j1
          have he1 : e1.map rowTag = specialTags config 0 := i2
          have he3 : e3.map rowTag = specialTags config 999 := j2
          refine ⟨e1, e2, e3, ?_, he1, s2, he3,
            rowTag_speaker_none e1 0 config he1, rowTag_speaker_none e3 999 config he3⟩
          rw [j1', s1', i1']
          simp

/-- Witness for C8 on the end-to-end scenario (four speakers numbered 1–4). -/
theorem claim_C8_witness :
    ∃ pre mid post,
      rowsScenario = pre ++ mid ++ post ∧
      pre.map rowTag = specialTags cfgScenarioFilled 0 ∧
      mid.map rowTag = speakersScenario.flatMap (fun sp =>
        (sp.title, some sp.speaker_name) :: specialTags cfgScenarioFilled sp.index) ∧
      post.map rowTag = specialTags cfgScenarioFilled 999 ∧
      (∀ r ∈ pre, r.speaker_name = none) ∧
      (∀ r ∈ post, r.speaker_name = none) :=
  claim_C8 [] "20250922" cfgScenarioFilled speakersScenario rowsScenario
    (by decide) (by decide)

end ActivityMgmt

namespace ActivityMgmt

/-- C3 counterexample: with `cfgRound` (60-minute window, one 10-minute
speaker, three null-duration sessions) the remaining 50 minutes are not
divisible by 3; the allocator assigns `round(50/3) = 17` to each, so the
composed agenda spans 61 minutes (final cursor 601, start 540) although
`end_time - start_time = 60` and `remaining = 50 ≥ 0` — refuting the claim
for remaining not divisible by the number of null-duration sessions. -/
theorem claim_C3_counterexample :
    distribute_empty_durations cfgRound 1 =
      some (cfgRoundFilled, [AllocMessage.distributedInfo 50 17]) ∧
    totalMinutes cfgRound = some 60 ∧
    0 ≤ (60 : Int) - (totalKnown cfgRound 1 : Int) ∧
    parseHHMM cfgRound.start_time = some 540 ∧
    (generate_agenda_total [] "20250922" cfgRoundFilled speakersRound).map
      (fun p => p.2) = some 601 ∧
    ((601 : Int) - 540 ≠ 60) := by
  refine ⟨rfl, rfl, by decide, rfl, rfl, by decide⟩


theorem generate_total_isSome (tmpl : SessionTypeTemplate) (ed : String)
    (config : AgendaConfig) (speakers : List Speaker) (t0 : Nat)
    (hps : parseHHMM config.start_time = some t0)
    (hsome : ∀ s ∈ config.special_sessions, s.duration.isSome) :
    ∃ rows tfin, generate_agenda_total tmpl ed config speakers = some (rows, tfin) := by
  unfold generate_agenda_total
  rw [hps]
  dsimp only
  cases h1 : insert_special_sessions tmpl ed [] t0 0 config.special_sessions with
  | none =>
    have hI := insert_isSome tmpl ed config.special_sessions [] t0 0
      (fun s hs _ => hsome s hs)
    rw [h1] at hI
    exact absurd hI (by simp)
  | some p1 =>
    obtain ⟨a1, t1⟩ := p1
    dsimp only
    cases h2 : generate_agenda_steps tmpl ed config speakers a1 t1 with
    | none =>
      have hS := steps_isSome tmpl ed config speakers a1 t1 hsome
      rw [h2] at hS
      exact absurd hS (by simp)
    | some p2 =>
      obtain ⟨a2, t2⟩ := p2
      dsimp only
      cases h3 : insert_special_sessions tmpl ed a2 t2 999 config.special_sessions with
      | none =>
        have hJ := insert_isSome tmpl ed config.special_sessions a2 t2 999
          (fun s hs _ => hsome s hs)
        rw [h3] at hJ
        exact absurd hJ (by simp)
      | some p3 =>
        obtain ⟨rows, tfin⟩ := p3
        exact ⟨rows, tfin, rfl⟩

set_option maxHeartbeats 1600000 in
/-- C3 (amended): for every valid config (well-formed times, speaker numbers
positive, below 999 and distinct, every anchor used) with
`remaining = total_minutes - total_known ≥ 0` after allocation, **where the
remaining minutes are divisible by the number of null-duration sessions (or
the remaining is 0 when there is none)**, composing the allocator output
yields an agenda whose total span — final cursor minus start — equals
`end_time - start_time` exactly.  (The unamended claim fails when the
remainder does not divide evenly: rounding makes the span differ.) -/
theorem claim_C3 (tmpl : SessionTypeTemplate) (ed : String) (config : AgendaConfig)
    (speakers : List Speaker) (tm : Int)
    (htm : totalMinutes config = some tm)
    (hrem : 0 ≤ tm - (totalKnown config speakers.length : Int))
    (hdvd : emptyItems config ≠ [] →
      ((emptyItems config).length : Int) ∣ (tm - (totalKnown config speakers.length : Int)))
    (hnil : emptyItems config = [] → tm - (totalKnown config speakers.length : Int) = 0)
    (hposidx : ∀ sp ∈ speakers, 0 < sp.index ∧ sp.index < 999)
    (hnodup : (speakers.map fun sp => sp.index).Nodup)
    (hanchor : ∀ s ∈ config.special_sessions,
      s.after_speaker = 0 ∨ s.after_speaker = 999 ∨
        s.after_speaker ∈ speakers.map fun sp => sp.index) :
    ∃ c' msgs rows tfin t0,
      distribute_empty_durations config speakers.length = some (c', msgs) ∧
      parseHHMM config.start_time = some t0 ∧
      generate_agenda_total tmpl ed c' speakers = some (rows, tfin) ∧
      (tfin : Int) - (t0 : Int) = tm := by
  obtain ⟨msgs, hdist⟩ := distribute_fill_of_nonneg config speakers.length tm htm hrem
  simp only [emptyItems] at hdist hdvd hnil
  cases hps : parseHHMM config.start_time with
  | none =>
    unfold totalMinutes at htm
    rw [hps] at htm
    exact absurd htm (by simp)
  | some t0 =>
    have hsome : ∀ s ∈ (fillEmpty (pyRoundDiv (tm - (totalKnown config speakers.length : Int)).toNat (config.special_sessions.filter fun s => durationMissing s.duration).length) config.special_sessions), s.duration.isSome :=
      fillEmpty_duration_isSome _ _
    obtain ⟨rows, tfin, hgen⟩ :=
      generate_total_isSome tmpl ed { config with special_sessions := (fillEmpty (pyRoundDiv (tm - (totalKnown config speakers.length : Int)).toNat (config.special_sessions.filter fun s => durationMissing s.duration).length) config.special_sessions) } speakers t0 hps hsome
    have hpsC : parseHHMM ({ config with special_sessions := (fillEmpty (pyRoundDiv (tm - (totalKnown config speakers.length : Int)).toNat (config.special_sessions.filter fun s => durationMissing s.duration).length) config.special_sessions) } : AgendaConfig).start_time = some t0 := hps
    obtain ⟨-, htime⟩ := generate_total_spec tmpl ed { config with special_sessions := (fillEmpty (pyRoundDiv (tm - (totalKnown config speakers.length : Int)).toNat (config.special_sessions.filter fun s => durationMissing s.duration).length) config.special_sessions) } speakers rows tfin t0 hpsC hgen
    simp only [specialSum] at htime
    try dsimp only at htime
    have hnd : ((0 : Int) :: ((speakers.map fun sp => sp.index) ++ [999])).Nodup := by
      rw [List.nodup_cons]
      constructor
      · simp only [List.mem_append, List.mem_map, List.mem_singleton]
        rintro (⟨sp, hsp, hidx0⟩ | h999)
        · have := (hposidx sp hsp).1
          omega
        · exact absurd h999 (by decide)
      · rw [List.nodup_append]
        refine ⟨hnodup, by simp, ?_⟩
        intro a ha hb
        simp only [List.mem_map] at ha
        obtain ⟨sp, hsp, rfl⟩ := ha
        simp only [List.mem_singleton] at hb
        have := (hposidx sp hsp).2
        omega
    have hcov : ∀ s ∈ (fillEmpty (pyRoundDiv (tm - (totalKnown config speakers.length : Int)).toNat (config.special_sessions.filter fun s => durationMissing s.duration).length) config.special_sessions),
        s.after_speaker ∈ (0 : Int) :: ((speakers.map fun sp => sp.index) ++ [999]) := by
      intro s hs
      obtain ⟨s0, hs0, heq⟩ := fillEmpty_after_mem _ _ s hs
      rw [heq]
      rcases hanchor s0 hs0 with h0 | h999 | hmem
      · rw [h0]
        exact List.mem_cons_self _ _
      · rw [h999]
        simp
      · simp [hmem]
    have hfib := sum_fibers (fun s => s.duration.getD 0)
      ((0 : Int) :: ((speakers.map fun sp => sp.index) ++ [999]))
      (fillEmpty (pyRoundDiv (tm - (totalKnown config speakers.length : Int)).toNat (config.special_sessions.filter fun s => durationMissing s.duration).length) config.special_sessions) hnd hcov
    simp only [List.map_cons, List.sum_cons, List.map_append, List.sum_append,
      List.map_map, Function.comp_def, List.map_nil, List.sum_nil,
      List.map_singleton, List.sum_singleton, Nat.add_zero] at hfib
    have hsum := sum_fillEmpty (pyRoundDiv (tm - (totalKnown config speakers.length : Int)).toNat (config.special_sessions.filter fun s => durationMissing s.duration).length) config.special_sessions
    have hknown : totalKnown config speakers.length =
        speakers.length * config.speaker_minutes + ((config.special_sessions.filter fun s => ! durationMissing s.duration).map fun s => s.duration.getD 0).sum := rfl
    rw [hfib] at htime
    rw [hsum] at htime
    by_cases hke : (config.special_sessions.filter fun s => durationMissing s.duration) = []
    · have hz := hnil hke
      have hk0 : (config.special_sessions.filter fun s => durationMissing s.duration).length = 0 := by
        rw [hke]
        rfl
      rw [hk0, Nat.mul_zero, Nat.add_zero] at htime
      refine ⟨{ config with special_sessions := (fillEmpty (pyRoundDiv (tm - (totalKnown config speakers.length : Int)).toNat (config.special_sessions.filter fun s => durationMissing s.duration).length) config.special_sessions) }, msgs, rows, tfin, t0, hdist, rfl, hgen, ?_⟩
      omega
    · have hkpos : (config.special_sessions.filter fun s => durationMissing s.duration).length ≠ 0 := by
        intro h0
        exact hke (List.length_eq_zero.mp h0)
      have hdk := hdvd hke
      have hR : ((tm - (totalKnown config speakers.length : Int)).toNat : Int) =
          tm - (totalKnown config speakers.length : Int) := Int.toNat_of_nonneg hrem
      have hdkN : (config.special_sessions.filter fun s => durationMissing s.duration).length ∣ (tm - (totalKnown config speakers.length : Int)).toNat := by
        have hX := hdk
        rw [← hR] at hX
        exact_mod_cast hX
      have hprod := pyRoundDiv_dvd (tm - (totalKnown config speakers.length : Int)).toNat
        (config.special_sessions.filter fun s => durationMissing s.duration).length hkpos hdkN
      have hprod' : (pyRoundDiv (tm - (totalKnown config speakers.length : Int)).toNat (config.special_sessions.filter fun s => durationMissing s.duration).length) * (config.special_sessions.filter fun s => durationMissing s.duration).length = (tm - (totalKnown config speakers.length : Int)).toNat := by
        rw [Nat.mul_comm]
        exact hprod
      rw [hprod'] at htime
      refine ⟨{ config with special_sessions := (fillEmpty (pyRoundDiv (tm - (totalKnown config speakers.length : Int)).toNat (config.special_sessions.filter fun s => durationMissing s.duration).length) config.special_sessions) }, msgs, rows, tfin, t0, hdist, rfl, hgen, ?_⟩
      omega

end ActivityMgmt

namespace ActivityMgmt

/-- Witness for C3 (amended) at `cfgMixed` with one speaker: the 30
remaining minutes divide evenly over the two falsy slots (15 each) and the
composed agenda spans exactly the 60-minute window. -/
theorem claim_C3_witness :
    ∃ c' msgs rows tfin t0,
      distribute_empty_durations cfgMixed speakersRound.length = some (c', msgs) ∧
      parseHHMM cfgMixed.start_time = some t0 ∧
      generate_agenda_total [] "20250922" c' speakersRound = some (rows, tfin) ∧
      (tfin : Int) - (t0 : Int) = 60 :=
  claim_C3 [] "20250922" cfgMixed speakersRound 60 (by decide) (by decide)
    (by decide) (by decide) (by decide) (by decide) (by decide)

end ActivityMgmt

namespace ActivityMgmt

/-! ## Classifier and mode lemmas -/

theorem matchRulesAux_eq_find (hay : String) :
    ∀ rules : List SpecialRule,
      matchRulesAux rules hay =
        match rules.find? (fun r => ruleMatches r hay) with
        | some r => (some r.title, r.is_end_of_day)
        | none => (none, false)
  | [] => rfl
  | r :: rest => by
    unfold matchRulesAux
    simp only [List.find?]
    by_cases h : ruleMatches r hay
    · simp [h]
    · simp [h, matchRulesAux_eq_find hay rest]

theorem mem_dedupFirstAux : ∀ (l seen : List Nat) (x : Nat),
    x ∈ dedupFirstAux l seen → x ∈ l
  | [], _, x, h => absurd h (by simp [dedupFirstAux])
  | y :: rest, seen, x, h => by
    unfold dedupFirstAux at h
    by_cases hy : seen.contains y
    · rw [if_pos hy] at h
      exact List.mem_cons_of_mem y (mem_dedupFirstAux rest seen x h)
    · rw [if_neg hy] at h
      rcases List.mem_cons.mp h with rfl | h'
      · exact List.mem_cons_self _ _
      · exact List.mem_cons_of_mem y (mem_dedupFirstAux rest (y :: seen) x h')

theorem dedupFirst_complete : ∀ (l seen : List Nat) (x : Nat),
    x ∈ l → ¬ x ∈ seen → x ∈ dedupFirstAux l seen
  | [], _, x, hx, _ => absurd hx (by simp)
  | y :: rest, seen, x, hx, hs => by
    unfold dedupFirstAux
    by_cases hy : seen.contains y
    · rw [if_pos hy]
      rcases List.mem_cons.mp hx with rfl | hx'
      · exact absurd (by simpa using hy) hs
      · exact dedupFirst_complete rest seen x hx' hs
    · rw [if_neg hy]
      by_cases hxy : x = y
      · subst hxy
        exact List.mem_cons_self _ _
      · rcases List.mem_cons.mp hx with rfl | hx'
        · exact absurd rfl hxy
        · refine List.mem_cons_of_mem y (dedupFirst_complete rest (y :: seen) x hx' ?_)
          intro hmem
          rcases List.mem_cons.mp hmem with rfl | hmem'
          · exact hxy rfl
          · exact hs hmem'

theorem foldBest_mem (l : List Nat) : ∀ (ks : List Nat) (k : Nat),
    ks.foldl (fun best key => if l.count key > l.count best then key else best) k ∈ k :: ks
  | [], k => by simp
  | key :: ks, k => by
    rw [List.foldl_cons]
    by_cases h : l.count key > l.count k
    · rw [if_pos h]
      have := foldBest_mem l ks key
      simp only [List.mem_cons] at this ⊢
      tauto
    · rw [if_neg h]
      have := foldBest_mem l ks k
      simp only [List.mem_cons] at this ⊢
      tauto

theorem foldBest_ge (l : List Nat) : ∀ (ks : List Nat) (k j : Nat), j ∈ k :: ks →
    l.count j ≤
      l.count (ks.foldl (fun best key => if l.count key > l.count best then key else best) k)
  | [], k, j, hj => by
    simp only [List.mem_cons, List.not_mem_nil, or_false] at hj
    subst hj
    simp
  | key :: ks, k, j, hj => by
    rw [List.foldl_cons]
    by_cases h : l.count key > l.count k
    · rw [if_pos h]
      rcases List.mem_cons.mp hj with heq | hj'
      · rw [heq]
        exact le_trans (le_of_lt h) (foldBest_ge l ks key key (by simp))
      · rcases List.mem_cons.mp hj' with heq | hj''
        · rw [heq]
          exact foldBest_ge l ks key key (by simp)
        · exact foldBest_ge l ks key j (by simp [hj''])
    · rw [if_neg h]
      rcases List.mem_cons.mp hj with heq | hj'
      · rw [heq]
        exact foldBest_ge l ks k k (by simp)
      · rcases List.mem_cons.mp hj' with heq | hj''
        · rw [heq]
          exact le_trans (Nat.le_of_not_lt h) (foldBest_ge l ks k k (by simp))
        · exact foldBest_ge l ks k j (by simp [hj''])

theorem counterMostCommon1_spec (l : List Nat) (k : Nat)
    (h : counterMostCommon1 l = some k) :
    k ∈ l ∧ ∀ j ∈ l, l.count j ≤ l.count k := by
  unfold counterMostCommon1 at h
  cases hd : dedupFirst l with
  | nil => rw [hd] at h; exact absurd h (by simp)
  | cons k0 ks =>
    rw [hd] at h
    have hk := Option.some.inj h
    constructor
    · rw [← hk]
      apply mem_dedupFirstAux l []
      rw [show dedupFirstAux l [] = k0 :: ks from hd]
      exact foldBest_mem l ks k0
    · intro j hj
      have hjd : j ∈ dedupFirst l := dedupFirst_complete l [] j hj (by simp)
      rw [hd] at hjd
      rw [← hk]
      exact foldBest_ge l ks k0 j hjd

end ActivityMgmt

namespace ActivityMgmt

/-- C6: the session classifier evaluates `SPECIAL_RULES` in declaration
order on the concatenated topic and speaker text, returning the canonical
title and end-of-day flag of the first matching rule (`List.find?`), and
no-match only when no rule matches; concretely, an input matching both the
survey rule and the later prize rule is classified as the survey title with
`is_end_of_day = true`. -/
theorem claim_C6 :
    (∀ topic_text speaker_text,
      _match_special_title topic_text speaker_text =
        match SPECIAL_RULES.find? (fun r => ruleMatches r
            (_clean_text topic_text ++ "\n" ++ _clean_text speaker_text)) with
        | some r => (some r.title, r.is_end_of_day)
        | none => (none, false)) ∧
    _match_special_title "問卷與兌獎說明" "" = (some "問卷與後測", true) ∧
    (SPECIAL_RULES.any fun r =>
      r.title == "兌獎" && ruleMatches r
        (_clean_text "問卷與兌獎說明" ++ "\n" ++ _clean_text "")) = true :=
  ⟨fun t s => matchRulesAux_eq_find (_clean_text t ++ "\n" ++ _clean_text s) SPECIAL_RULES,
   by decide, by decide⟩

/-- C5: `speaker_minutes` inference.  On the concrete tables the parser
infers the mode 30 from durations `[30, 30, 45]`, the first-encountered
value 30 from the tie `[30, 45]`, and the default 50 with no talks; and in
general `Counter(...).most_common(1)` returns a member of the duration list
of maximal count (ties resolved deterministically by first encounter). -/
theorem claim_C5 :
    (processRows rowsModeA initState).map (fun σ => σ.talk_durations) =
      some [30, 30, 45] ∧
    ((parse_agenda rowsModeA "E").map fun p => p.agenda_settings.speaker_minutes) =
      some 30 ∧
    (processRows rowsModeB initState).map (fun σ => σ.talk_durations) =
      some [30, 45] ∧
    ((parse_agenda rowsModeB "E").map fun p => p.agenda_settings.speaker_minutes) =
      some 30 ∧
    ((parse_agenda [] "E").map fun p => p.agenda_settings.speaker_minutes) =
      some 50 ∧
    counterMostCommon1 [30, 30, 45] = some 30 ∧
    counterMostCommon1 [30, 45] = some 30 ∧
    (∀ (l : List Nat) (k : Nat), counterMostCommon1 l = some k →
      k ∈ l ∧ ∀ j ∈ l, l.count j ≤ l.count k) := by
  refine ⟨by decide, by decide, by decide, by decide, by decide, by decide, by decide, ?_⟩
  exact counterMostCommon1_spec

end ActivityMgmt

namespace ActivityMgmt

/-- C7: deduplication of the special-session list.  (a) Adding a session
whose canonical title already occurs with a normalized speaker name equal
to or containing (either direction) the new one is suppressed: the lists
are returned unchanged with no index.  (b) In the speakers-array insertion
loop, an anonymous host entry is skipped entirely when a named host entry
already exists in the base list. -/
theorem claim_C7 :
    (∀ (specials : List SpecialSession) (st : List (Option (String × String)))
       (title : String) (asp : Int) (dur : Option Nat) (speaker : Option String)
       (tr : Option (String × String)) (sp : SpecialSession),
      sp ∈ specials → sp.title = title →
      (_normalize_speaker_for_compare speaker).isEmpty = false →
      (containsSub (_normalize_speaker_for_compare sp.speaker)
          (_normalize_speaker_for_compare speaker) = true ∨
       containsSub (_normalize_speaker_for_compare speaker)
          (_normalize_speaker_for_compare sp.speaker) = true) →
      _add_special specials st title asp dur speaker tr = (specials, st, none)) ∧
    (∀ (base : List SpeakerItem) (sp : SpecialSession),
      (special_to_item sp).type = "主持人" →
      (special_to_item sp).name = "" →
      (∃ x ∈ base, x.type = "主持人" ∧ x.name.isEmpty = false) →
      insertSpecialIntoBase base sp = base) := by
  constructor
  · intro specials st title asp dur speaker tr sp hmem htitle hne hcont
    have hex : _special_exists specials title
        (_normalize_speaker_for_compare speaker) = true := by
      unfold _special_exists
      rw [List.any_eq_true]
      refine ⟨sp, hmem, ?_⟩
      rcases hcont with hc | hc <;> simp [htitle, hne, hc]
    simp [_add_special, hex]
  · intro base sp hty hnm hx
    obtain ⟨x, hxmem, hxty, hxne⟩ := hx
    have hany : (base.any fun x => x.type == "主持人" && !x.name.isEmpty) = true := by
      rw [List.any_eq_true]
      exact ⟨x, hxmem, by simp [hxty, hxne]⟩
    simp [insertSpecialIntoBase, hty, hnm, hany]

/-- Witness for C7: a second 主持人 entry for 王小明 is suppressed when the
list already holds a host whose speaker text contains that name, and an
anonymous host special leaves a base list with a named host unchanged. -/
theorem claim_C7_witness :
    _add_special [⟨0, "主持人", none, some "主持人：王小明", none, none⟩]
        [none] "主持人" 1 none (some "王小明") none =
      ([⟨0, "主持人", none, some "主持人：王小明", none, none⟩], [none], none) ∧
    insertSpecialIntoBase [⟨"主持人", "主持人", "王小明", none, none⟩]
        { after_speaker := 0, title := "主持人" } =
      [⟨"主持人", "主持人", "王小明", none, none⟩] := by
  constructor
  · exact claim_C7.1 _ _ _ _ _ _ _
      ⟨0, "主持人", none, some "主持人：王小明", none, none⟩
      (by decide) rfl (by decide) (Or.inl (by decide))
  · exact claim_C7.2 _ _ (by decide) (by decide)
      ⟨⟨"主持人", "主持人", "王小明", none, none⟩, by decide, by decide, by decide⟩

end ActivityMgmt

namespace ActivityMgmt

theorem anchor_eq (n : Nat) : (if n > 0 then (n : Int) else 0) = (n : Int) := by
  by_cases h : n > 0
  · simp [h]
  · have h0 : n = 0 := by omega
    simp [h0]

theorem add_special_spec (specials : List SpecialSession)
    (st : List (Option (String × String))) (title : String) (a : Int)
    (d : Option Nat) (s : Option String) (tr : Option (String × String)) :
    _add_special specials st title a d s tr = (specials, st, none) ∨
    ∃ obj : SpecialSession, obj.after_speaker = a ∧
      _add_special specials st title a d s tr =
        (specials ++ [obj], st ++ [tr], some specials.length) := by
  by_cases h : _special_exists specials title (_normalize_speaker_for_compare s) = true
  · left
    simp [_add_special, h]
  · right
    refine ⟨⟨a, title, d, if optStrFalsy s then none else s, none, none⟩, rfl, ?_⟩
    simp [_add_special, h]

theorem addSpecialStep_talk_idx (σ : ParseState) (title : String) (a : Int)
    (d : Option Nat) (s : Option String) (tr : Option (String × String)) :
    (addSpecialStep σ title a d s tr).talk_idx = σ.talk_idx := by
  rcases add_special_spec σ.specials σ.special_times title a d s tr with heq | ⟨obj, hobj, heq⟩
  · unfold addSpecialStep
    rw [heq]
  · unfold addSpecialStep
    rw [heq]

theorem ParseInv_congr (σ τ : ParseState) (hs : τ.specials = σ.specials)
    (ht : τ.timeline = σ.timeline) (hk : τ.talk_idx = σ.talk_idx)
    (h : ParseInv σ) : ParseInv τ := by
  unfold ParseInv at h ⊢
  rw [hs, ht, hk]
  exact h

theorem ParseInv_talkAppend (σ τ : ParseState) (n : Nat)
    (hs : τ.specials = σ.specials) (hk : τ.talk_idx = σ.talk_idx + 1)
    (ht : τ.timeline = σ.timeline ++ [.talk n])
    (h : ParseInv σ) : ParseInv τ := by
  unfold ParseInv at h ⊢
  rw [hs, ht, hk]
  constructor
  · intro sp hsp
    obtain ⟨h1, h2⟩ := h.1 sp hsp
    refine ⟨h1, ?_⟩
    omega
  · intro i hi
    rw [List.getLast?_concat] at hi
    exact absurd hi (by simp)

theorem inv_addSpecialStep (σ : ParseState) (title : String) (a : Int)
    (d : Option Nat) (s : Option String) (tr : Option (String × String))
    (ha : a = (σ.talk_idx : Int)) (h : ParseInv σ) :
    ParseInv (addSpecialStep σ title a d s tr) := by
  rcases add_special_spec σ.specials σ.special_times title a d s tr with heq | ⟨obj, hobj, heq⟩
  · unfold addSpecialStep
    rw [heq]
    exact ParseInv_congr σ _ rfl rfl rfl h
  · unfold addSpecialStep
    rw [heq]
    constructor
    · dsimp only
      intro sp hsp
      rw [List.mem_append] at hsp
      rcases hsp with hin | hone
      · exact h.1 sp hin
      · rw [List.mem_singleton] at hone
        subst hone
        rw [hobj, ha]
        exact ⟨Int.natCast_nonneg _, le_refl _⟩
    · dsimp only
      intro i hi
      rw [List.getLast?_concat] at hi
      simp only [Option.some.injEq, TLEntry.special.injEq] at hi
      subst hi
      refine ⟨obj, ?_, ?_⟩
      · rw [List.get?_eq_getElem?]
        exact List.getElem?_concat_length σ.specials obj
      · rw [hobj, ha]

theorem addHosts_talk_idx : ∀ (names : List String) (σ : ParseState) (a : Int)
    (d : Option Nat) (tr : Option (String × String)),
    (addHosts σ names a d tr).talk_idx = σ.talk_idx := by
  intro names
  induction names with
  | nil => intro σ a d tr; rfl
  | cons n ns ih =>
    intro σ a d tr
    have hunf : addHosts σ (n :: ns) a d tr =
        addHosts (addSpecialStep σ "主持人" a d
          (if n.isEmpty then none else some n) tr) ns a d tr := rfl
    rw [hunf, ih, addSpecialStep_talk_idx]

theorem inv_addHosts : ∀ (names : List String) (σ : ParseState) (a : Int)
    (d : Option Nat) (tr : Option (String × String)),
    a = (σ.talk_idx : Int) → ParseInv σ → ParseInv (addHosts σ names a d tr) := by
  intro names
  induction names with
  | nil => intro σ a d tr ha h; exact h
  | cons n ns ih =>
    intro σ a d tr ha h
    have hunf : addHosts σ (n :: ns) a d tr =
        addHosts (addSpecialStep σ "主持人" a d
          (if n.isEmpty then none else some n) tr) ns a d tr := rfl
    rw [hunf]
    refine ih _ a d tr ?_ ?_
    · rw [addSpecialStep_talk_idx]
      exact ha
    · exact inv_addSpecialStep σ _ a d _ tr ha h

end ActivityMgmt

namespace ActivityMgmt

theorem inv_processRow (σ σ' : ParseState) (r : String × String × String)
    (h : ParseInv σ) (hrow : processRow σ r = some σ') :
    ParseInv σ' ∧ σ'.talk_idx ≤ σ.talk_idx + 1 := by
  unfold processRow at hrow
  dsimp only at hrow
  cases hmt : (_match_special_title (_clean_text r.2.1) (_clean_text r.2.2)).1 with
  | some nt =>
    rw [hmt] at hrow
    dsimp only at hrow
    cases htr : _extract_time_range (_clean_text r.1) with
    | some p =>
      obtain ⟨t1, t2⟩ := p
      rw [htr] at hrow
      dsimp only at hrow
      cases hmb : _minutes_between t1 t2 with
      | none =>
        rw [hmb] at hrow
        exact Option.noConfusion hrow
      | some dur =>
        rw [hmb] at hrow
        dsimp only at hrow
        injection hrow with hrow2
        subst hrow2
        constructor
        · apply inv_addHosts
          · rw [addSpecialStep_talk_idx, anchor_eq]
          · apply inv_addSpecialStep
            · rw [anchor_eq]
            · exact ParseInv_congr σ _ rfl rfl rfl h
        · rw [addHosts_talk_idx, addSpecialStep_talk_idx]
          exact Nat.le_succ _
    | none =>
      rw [htr] at hrow
      dsimp only at hrow
      injection hrow with hrow2
      subst hrow2
      constructor
      · apply inv_addHosts
        · rw [addSpecialStep_talk_idx, anchor_eq]
        · apply inv_addSpecialStep
          · rw [anchor_eq]
          · exact h
      · rw [addHosts_talk_idx, addSpecialStep_talk_idx]
        exact Nat.le_succ _
  | none =>
    rw [hmt] at hrow
    dsimp only at hrow
    cases htr : _extract_time_range (_clean_text r.1) with
    | none =>
      rw [htr] at hrow
      dsimp only at hrow
      cases htr2 : _extract_time_range (_clean_text r.2.1) with
      | none =>
        rw [htr2] at hrow
        dsimp only at hrow
        injection hrow with hrow2
        subst hrow2
        constructor
        · apply inv_addHosts
          · rw [anchor_eq]
          · exact h
        · rw [addHosts_talk_idx]
          exact Nat.le_succ _
      | some p =>
        obtain ⟨t1, t2⟩ := p
        rw [htr2] at hrow
        dsimp only at hrow
        cases hmb : _minutes_between t1 t2 with
        | none =>
          rw [hmb] at hrow
          exact Option.noConfusion hrow
        | some tmin =>
          rw [hmb] at hrow
          dsimp only at hrow
          injection hrow with hrow2
          subst hrow2
          constructor
          · apply inv_addHosts
            · rfl
            · exact ParseInv_talkAppend σ _ (σ.talk_idx + 1) rfl rfl rfl h
          · rw [addHosts_talk_idx]
    | some p =>
      obtain ⟨t1, t2⟩ := p
      rw [htr] at hrow
      dsimp only at hrow
      cases hmb : _minutes_between t1 t2 with
      | none =>
        rw [hmb] at hrow
        exact Option.noConfusion hrow
      | some tmin =>
        rw [hmb] at hrow
        dsimp only at hrow
        injection hrow with hrow2
        subst hrow2
        constructor
        · apply inv_addHosts
          · rfl
          · exact ParseInv_talkAppend σ _ (σ.talk_idx + 1) rfl rfl rfl h
        · rw [addHosts_talk_idx]

end ActivityMgmt

namespace ActivityMgmt

theorem parseInv_init : ParseInv initState := by
  refine ⟨fun sp hsp => ?_, fun i hi => ?_⟩
  · simp [initState] at hsp
  · simp [initState] at hi

theorem inv_processRows : ∀ (rows : List (String × String × String)) (σ₀ σ : ParseState),
    ParseInv σ₀ → processRows rows σ₀ = some σ →
    ParseInv σ ∧ σ.talk_idx ≤ σ₀.talk_idx + rows.length := by
  intro rows
  induction rows with
  | nil =>
    intro σ₀ σ h hp
    unfold processRows at hp
    injection hp with hp2
    subst hp2
    exact ⟨h, by simp⟩
  | cons r rest ih =>
    intro σ₀ σ h hp
    unfold processRows at hp
    cases hr : processRow σ₀ r with
    | none =>
      rw [hr] at hp
      exact Option.noConfusion hp
    | some σ₁ =>
      rw [hr] at hp
      dsimp only at hp
      obtain ⟨h1, hk1⟩ := inv_processRow σ₀ σ₁ r h hr
      obtain ⟨h2, hk2⟩ := ih σ₁ σ h1 hp
      refine ⟨h2, ?_⟩
      simp only [List.length_cons]
      omega

theorem finalizeSpecials_get (σ : ParseState) (i : Nat) (sp : SpecialSession)
    (hi : σ.specials.get? i = some sp) :
    (finalizeSpecials σ).get? i =
      (if σ.timeline.getLast? = some (.special i) ∧ closingHeuristicB σ i = true
       then some { sp with after_speaker := 999 } else some sp) := by
  have hlen : i < σ.specials.length := by
    rcases List.get?_eq_some.mp hi with ⟨hl, -⟩
    exact hl
  have hi' : σ.specials[i]? = some sp := by
    rw [← List.get?_eq_getElem?]
    exact hi
  unfold finalizeSpecials
  cases hlast : σ.timeline.getLast? with
  | none => simp [hi']
  | some e =>
    cases e with
    | talk n => simp [hi']
    | special sidx =>
      dsimp only
      by_cases hii : i = sidx
      · subst hii
        rw [hi]
        dsimp only
        have hch : closingHeuristicB σ i =
            (endMatches σ i || END_TITLES.contains sp.title) := by
          unfold closingHeuristicB
          rw [hi]
        rw [hch]
        cases hB : (endMatches σ i || END_TITLES.contains sp.title) with
        | true => simp [List.getElem?_set, hlen]
        | false => simp [hi']
      · have hcond : ¬(some (TLEntry.special sidx) = some (TLEntry.special i) ∧
            closingHeuristicB σ i = true) := by
          rintro ⟨hq, -⟩
          simp only [Option.some.injEq, TLEntry.special.injEq] at hq
          exact hii hq.symm
        rw [if_neg hcond]
        cases hs2 : σ.specials.get? sidx with
        | none =>
          dsimp only
          exact hi
        | some sp0 =>
          dsimp only
          cases hB : (endMatches σ sidx || END_TITLES.contains sp0.title) with
          | true =>
            rw [if_pos rfl]
            rw [List.get?_eq_getElem?]
            rw [List.getElem?_set_ne (fun hq => hii hq.symm)]
            exact hi'
          | false =>
            rw [if_neg Bool.false_ne_true]
            exact hi

end ActivityMgmt

namespace ActivityMgmt

/-- C4: the closing anchor 999 is assigned at exactly one program point.
While rows are processed every special's anchor stays between 0 and the
running talk counter, so with fewer than 999 rows no special carries 999
before the post-loop check; the post-loop check rewrites exactly the
special that is the last timeline entry, and only when its end time equals
the overall last seen end time or its canonical title is tagged
end-of-day; a trailing special is anchored at the last talk number, and
keeps that anchor when the heuristic's conditions fail. -/
theorem claim_C4 (rows : List (String × String × String)) (σ : ParseState)
    (hp : processRows rows initState = some σ) (hlen : rows.length < 999) :
    (∀ sp ∈ σ.specials, sp.after_speaker ≠ 999) ∧
    (∀ i sp, σ.specials.get? i = some sp →
      (finalizeSpecials σ).get? i =
        (if σ.timeline.getLast? = some (.special i) ∧ closingHeuristicB σ i = true
         then some { sp with after_speaker := 999 } else some sp)) ∧
    (∀ i, σ.timeline.getLast? = some (.special i) →
      ∃ sp, σ.specials.get? i = some sp ∧ sp.after_speaker = (σ.talk_idx : Int) ∧
        (closingHeuristicB σ i = false → (finalizeSpecials σ).get? i = some sp)) := by
  obtain ⟨hinv, hle⟩ := inv_processRows rows initState σ parseInv_init hp
  have htk : σ.talk_idx ≤ rows.length := by
    simpa [initState] using hle
  refine ⟨?_, ?_, ?_⟩
  · intro sp hsp heq
    obtain ⟨h0, h1⟩ := hinv.1 sp hsp
    rw [heq] at h1
    omega
  · intro i sp hi
    exact finalizeSpecials_get σ i sp hi
  · intro i hlast
    obtain ⟨sp, hi, hanch⟩ := hinv.2 i hlast
    refine ⟨sp, hi, hanch, ?_⟩
    intro hcb
    rw [finalizeSpecials_get σ i sp hi]
    rw [if_neg]
    rintro ⟨-, hq⟩
    rw [hcb] at hq
    exact Bool.false_ne_true hq

/-- Witness for C4 on the one-row agenda 09:00-09:10 致詞: mid-loop the
special is anchored at 0, not 999, and the post-loop check (whose
conditions hold here) rewrites it to 999. -/
theorem claim_C4_witness :
    spC4.after_speaker ≠ 999 ∧
    (finalizeSpecials σC4).get? 0 = some { spC4 with after_speaker := 999 } := by
  obtain ⟨h1, h2, -⟩ := claim_C4 [("09:00-09:10", "致詞", "")] σC4 (by decide) (by decide)
  refine ⟨h1 spC4 (by decide), ?_⟩
  rw [h2 0 spC4 (by decide)]
  have hc : σC4.timeline.getLast? = some (TLEntry.special 0) ∧
      closingHeuristicB σC4 0 = true := ⟨by decide, by decide⟩
  rw [if_pos hc]

end ActivityMgmt

namespace ActivityMgmt

/-- Witness for C5: instantiating the most-common maximality conjunct on
the tie list gives membership of 30 and that 45's count never beats
30's. -/
theorem claim_C5_witness :
    30 ∈ [30, 45] ∧ [30, 45].count 45 ≤ [30, 45].count 30 := by
  obtain ⟨-, -, -, -, -, -, -, hgen⟩ := claim_C5
  obtain ⟨hmem, hmax⟩ := hgen [30, 45] 30 (by decide)
  exact ⟨hmem, hmax 45 (by decide)⟩

end ActivityMgmt
